/-
Verification of the trail-catalog synchronization program
(`scripts/update_trails.py`) against its specification.

The development shallowly embeds the program:

* JSON documents are the inductive type `J`; Python dicts are ordered
  association lists (insertion order preserved), matching CPython semantics.
* Python floats are modelled as exact rationals `ℚ` throughout the merge
  engine.  The one genuinely transcendental computation — the haversine
  distance inside `calculate_elevation_stats` — cannot be represented
  exactly over `ℚ`, so the merge-engine embedding takes the pointwise
  distance function `hav` as an explicit parameter; every merge-engine
  theorem is proved for an arbitrary `hav`, hence in particular for the
  float haversine.  The haversine formula itself is embedded exactly over
  `ℝ` (`haversineDist`) for the distance-monotonicity property.
* Filesystem / XML plumbing is abstracted as data: a `GpxFile` carries the
  results of parsing one GPX document (its point list, track name, OSM
  extension tags, …), exactly the data the extraction helpers
  (`parse_gpx_points`, `get_gpx_track_name`, `extract_osm_name`,
  `extract_surface_type`) return.
* The external translation collaborator is a parameter
  `tr : String → String → String` together with the availability flag
  `avail` (`TRANSLATOR_AVAILABLE`); `translate_text` wraps it exactly as
  the source does.
-/
import Mathlib

set_option maxRecDepth 10000
set_option maxHeartbeats 1000000

namespace TrailAtlas

/-! ## Exact rational arithmetic

Python float arithmetic is modelled by exact rational arithmetic.  The
`Rat` operations of the ambient library are marked irreducible, which
blocks kernel evaluation of concrete runs, so the four operations the
program needs are spelled out through the smart constructor `mkRat`;
bridging lemmas (`qadd_eq` etc., below) identify them with `+`, `-`, `*`,
`/` for reasoning. -/

/-- Rational addition via `mkRat`. -/
def qadd (a b : ℚ) : ℚ := mkRat (a.num * b.den + b.num * a.den) (a.den * b.den)

/-- Rational subtraction via `mkRat`. -/
def qsub (a b : ℚ) : ℚ := mkRat (a.num * b.den - b.num * a.den) (a.den * b.den)

/-- Rational multiplication via `mkRat`. -/
def qmul (a b : ℚ) : ℚ := mkRat (a.num * b.num) (a.den * b.den)

/-- Rational division via `mkRat` (division by zero yields zero, matching
the ambient convention; the program only divides by positive values). -/
def qdiv (a b : ℚ) : ℚ :=
  if b.num < 0 then mkRat (-(a.num * b.den)) (a.den * b.num.natAbs)
  else mkRat (a.num * b.den) (a.den * b.num.natAbs)

/-- Floor of a rational (`⌊·⌋`), via flooring integer division. -/
def qfloor (q : ℚ) : Int := q.num.fdiv q.den

/-! ## Python string / number helpers -/

/-- Characters `str.strip()` removes (the ASCII whitespace among them —
the strings at play contain no exotic Unicode whitespace). -/
def isPySpace (c : Char) : Bool :=
  c = ' ' ∨ c = '\t' ∨ c = '\n' ∨ c = '\r' ∨ c = '\x0b' ∨ c = '\x0c'

/-- Model of `str.strip()`. -/
def pyStrip (s : String) : String :=
  String.mk (((s.data.dropWhile isPySpace).reverse.dropWhile isPySpace).reverse)

/-- Model of `str.replace(pat, rep)` for one-character patterns (the
program only replaces `"_"` by `" "`). -/
def pyReplaceChar (pat rep : Char) (s : String) : String :=
  String.mk (s.data.map fun c => if c = pat then rep else c)

/-- Code-point comparison of strings (Python string `<`). -/
def charsLtB : List Char → List Char → Bool
  | [], [] => false
  | [], _ :: _ => true
  | _ :: _, [] => false
  | a :: as, b :: bs =>
      if a.toNat < b.toNat then true
      else if a.toNat = b.toNat then charsLtB as bs
      else false

/-- Boolean string comparison by code points. -/
def strLtB (a b : String) : Bool := charsLtB a.data b.data

/-- Model of `str.title()`: first letter of each alphabetic run upper-cased, the
rest lower-cased. -/
def pyTitleGo : Bool → List Char → List Char
  | _, [] => []
  | prevAlpha, c :: rest =>
      (if c.isAlpha then (if prevAlpha then c.toLower else c.toUpper) else c)
        :: pyTitleGo c.isAlpha rest

def pyTitle (s : String) : String := String.mk (pyTitleGo false s.data)

/-- Model of `int(s)` on a decimal string: optional surrounding whitespace, optional
sign, at least one digit; `none` models the `ValueError` path. -/
def pyInt (s : String) : Option Int :=
  let t := pyStrip s
  let core : Option (Bool × List Char) :=
    match t.data with
    | '-' :: rest => some (true, rest)
    | '+' :: rest => some (false, rest)
    | l => some (false, l)
  match core with
  | some (neg, ds) =>
      if ds ≠ [] ∧ ds.all Char.isDigit then
        let n : Nat := ds.foldl (fun acc c => acc * 10 + (c.toNat - 48)) 0
        some (if neg then -(n : Int) else (n : Int))
      else none
  | none => none

/-- Decimal digits of a natural number (most significant first). -/
def natDigits (n : Nat) : List Char :=
  (Nat.toDigits 10 n)

/-- Round a rational to `nd` decimal places, half-to-even, and print it with
exactly `nd` digits after the point — the model of Python's `"{:.Nf}"`
formatting.  (CPython formats the nearest binary double; only determinism
and non-emptiness of the result matter to the claims.) -/
def fmtFixed (nd : Nat) (q : ℚ) : String :=
  let scaled : ℚ := qmul q (mkRat ((10 : Nat) ^ nd : Nat) 1)
  let fl : Int := qfloor scaled
  let r : ℚ := qsub scaled (mkRat fl 1)
  let rounded : Int :=
    if r > mkRat 1 2 then fl + 1
    else if r < mkRat 1 2 then fl
    else if fl % 2 = 0 then fl else fl + 1
  let sign := if rounded < 0 then "-" else ""
  let m := rounded.natAbs
  if nd = 0 then
    sign ++ String.mk (natDigits m)
  else
    let whole := m / (10 ^ nd)
    let frac := m % (10 ^ nd)
    let fs := String.mk (natDigits frac)
    let padded := String.mk (List.replicate (nd - fs.length) '0') ++ fs
    sign ++ String.mk (natDigits whole) ++ "." ++ padded

/-- Insert a string into a sorted list (code-point order, `sorted`). -/
def insStr (s : String) : List String → List String
  | [] => [s]
  | x :: xs => if strLtB s x then s :: x :: xs else x :: insStr s xs

/-- Model of `sorted(strings)`. -/
def sortStrings : List String → List String
  | [] => []
  | s :: rest => insStr s (sortStrings rest)

/-- Deduplicate, keeping first occurrences (the key order of a dict built
by successive assignment). -/
def dedupStr : List String → List String
  | [] => []
  | s :: rest => s :: (dedupStr rest).filter (fun t => t ≠ s)

/-! ## JSON values

Python objects produced by `json.load` / consumed by `json.dump`：
The cases are `None`, `bool`, numbers (modelled as `ℚ`), `str`, `list`, `dict`.
Dicts keep insertion order, as CPython dicts do. -/

inductive J : Type where
  | null : J
  | jbool : Bool → J
  | jnum : ℚ → J
  | jstr : String → J
  | jarr : List J → J
  | jobj : List (String × J) → J

mutual

/-- Boolean equality on JSON values (written by hand: `deriving` does not
handle the nested lists). -/
def jeq : J → J → Bool
  | J.null, J.null => true
  | J.jbool a, J.jbool b => a == b
  | J.jnum a, J.jnum b => a == b
  | J.jstr a, J.jstr b => a == b
  | J.jarr a, J.jarr b => jeqList a b
  | J.jobj a, J.jobj b => jeqKV a b
  | _, _ => false

/-- Elementwise `jeq` on lists. -/
def jeqList : List J → List J → Bool
  | [], [] => true
  | x :: xs, y :: ys => jeq x y && jeqList xs ys
  | _, _ => false

/-- Elementwise `jeq` on association lists. -/
def jeqKV : List (String × J) → List (String × J) → Bool
  | [], [] => true
  | (k1, v1) :: xs, (k2, v2) :: ys => k1 == k2 && jeq v1 v2 && jeqKV xs ys
  | _, _ => false

end

mutual

theorem jeq_iff : ∀ a b, jeq a b = true ↔ a = b
  | J.null, J.null => by simp [jeq]
  | J.jbool a, J.jbool b => by simp [jeq]
  | J.jnum a, J.jnum b => by simp [jeq]
  | J.jstr a, J.jstr b => by simp [jeq]
  | J.jarr a, J.jarr b => by
      simp only [jeq, jeqList_iff a b, J.jarr.injEq]
  | J.jobj a, J.jobj b => by
      simp only [jeq, jeqKV_iff a b, J.jobj.injEq]
  | J.null, J.jbool _ => by simp [jeq]
  | J.null, J.jnum _ => by simp [jeq]
  | J.null, J.jstr _ => by simp [jeq]
  | J.null, J.jarr _ => by simp [jeq]
  | J.null, J.jobj _ => by simp [jeq]
  | J.jbool _, J.null => by simp [jeq]
  | J.jbool _, J.jnum _ => by simp [jeq]
  | J.jbool _, J.jstr _ => by simp [jeq]
  | J.jbool _, J.jarr _ => by simp [jeq]
  | J.jbool _, J.jobj _ => by simp [jeq]
  | J.jnum _, J.null => by simp [jeq]
  | J.jnum _, J.jbool _ => by simp [jeq]
  | J.jnum _, J.jstr _ => by simp [jeq]
  | J.jnum _, J.jarr _ => by simp [jeq]
  | J.jnum _, J.jobj _ => by simp [jeq]
  | J.jstr _, J.null => by simp [jeq]
  | J.jstr _, J.jbool _ => by simp [jeq]
  | J.jstr _, J.jnum _ => by simp [jeq]
  | J.jstr _, J.jarr _ => by simp [jeq]
  | J.jstr _, J.jobj _ => by simp [jeq]
  | J.jarr _, J.null => by simp [jeq]
  | J.jarr _, J.jbool _ => by simp [jeq]
  | J.jarr _, J.jnum _ => by simp [jeq]
  | J.jarr _, J.jstr _ => by simp [jeq]
  | J.jarr _, J.jobj _ => by simp [jeq]
  | J.jobj _, J.null => by simp [jeq]
  | J.jobj _, J.jbool _ => by simp [jeq]
  | J.jobj _, J.jnum _ => by simp [jeq]
  | J.jobj _, J.jstr _ => by simp [jeq]
  | J.jobj _, J.jarr _ => by simp [jeq]

theorem jeqList_iff : ∀ a b, jeqList a b = true ↔ a = b
  | [], [] => by simp [jeqList]
  | x :: xs, y :: ys => by
      simp only [jeqList, Bool.and_eq_true, jeq_iff x y, jeqList_iff xs ys,
        List.cons.injEq]
  | [], _ :: _ => by simp [jeqList]
  | _ :: _, [] => by simp [jeqList]

theorem jeqKV_iff : ∀ a b, jeqKV a b = true ↔ a = b
  | [], [] => by simp [jeqKV]
  | (k1, v1) :: xs, (k2, v2) :: ys => by
      simp only [jeqKV, Bool.and_eq_true, beq_iff_eq, jeq_iff v1 v2,
        jeqKV_iff xs ys, List.cons.injEq, Prod.mk.injEq, and_assoc]
  | [], _ :: _ => by simp [jeqKV]
  | _ :: _, [] => by simp [jeqKV]

end

instance : DecidableEq J := fun a b =>
  decidable_of_iff (jeq a b = true) (jeq_iff a b)

/-- Python truthiness of a JSON value (`if v:`). -/
def pyTruthy : J → Bool
  | J.null => false
  | J.jbool b => b
  | J.jnum q => decide (q ≠ 0)
  | J.jstr s => decide (s ≠ "")
  | J.jarr l => decide (l ≠ [])
  | J.jobj l => decide (l ≠ [])

/-- Model of `d.get(k)`: first binding of `k` (CPython dicts have unique keys, so
first = only). -/
def dget : List (String × J) → String → Option J
  | [], _ => none
  | (k', v) :: rest, k => if k' = k then some v else dget rest k

/-- Model of `d[k] = v`: replace the first binding of `k` in place, else append —
CPython dict assignment keeps the original position of an existing key. -/
def dset : List (String × J) → String → J → List (String × J)
  | [], k, v => [(k, v)]
  | (k', v') :: rest, k, v =>
      if k' = k then (k, v) :: rest else (k', v') :: dset rest k v

/-- The keys of a dict, in order (`d.keys()`). -/
def dkeys (kvs : List (String × J)) : List String := kvs.map (·.1)

/-- The values of a dict, in order (`d.values()`). -/
def dvals (kvs : List (String × J)) : List J := kvs.map (·.2)

/-- Model of `next((v for v in vals if v), dflt)`: first truthy value, else default. -/
def firstTruthy (vals : List J) (dflt : J) : J :=
  match vals.find? pyTruthy with
  | some v => v
  | none => dflt

/-- Insert a key/value pair into a key-sorted association list
(strict `<`, so insertion after equal keys: a stable insertion sort). -/
def insByKey (kv : String × J) : List (String × J) → List (String × J)
  | [] => [kv]
  | x :: xs => if strLtB kv.1 x.1 then kv :: x :: xs else x :: insByKey kv xs

/-- Stable insertion sort of dict entries by key, as
`json.dumps(_, sort_keys=True)` orders them. -/
def sortByKey : List (String × J) → List (String × J)
  | [] => []
  | kv :: rest => insByKey kv (sortByKey rest)

mutual

/-- Canonical form of a JSON value: every object's entries sorted by key,
recursively.  Two values have the same `json.dumps(_, sort_keys=True)`
serialization exactly when their canonical forms agree. -/
def canon : J → J
  | J.null => J.null
  | J.jbool b => J.jbool b
  | J.jnum q => J.jnum q
  | J.jstr s => J.jstr s
  | J.jarr l => J.jarr (canonList l)
  | J.jobj kvs => J.jobj (sortByKey (canonKV kvs))

/-- The canonical form of each list element. -/
def canonList : List J → List J
  | [] => []
  | x :: xs => canon x :: canonList xs

/-- The canonical form of each value of an association list. -/
def canonKV : List (String × J) → List (String × J)
  | [] => []
  | (k, v) :: xs => (k, canon v) :: canonKV xs

end

/-- Source `roots_equal` (line 848): compare content ignoring formatting and
key-order noise, via sorted-key serialization. -/
def roots_equal (a b : J) : Bool := decide (canon a = canon b)

/-! ## MD5

Source `stable_random_difficulty` (lines 517–521) hashes the trail id with
`hashlib.md5` and reduces the first eight hex digits modulo 4.  The MD5
algorithm (RFC 1321) is embedded below over `Nat`, with 32-bit wrap-around
written as `% 2 ^ 32`. -/

/-- UTF-8 encoding of a string as a byte list (`s.encode("utf-8")`). -/
def utf8Char (c : Char) : List Nat :=
  let n := c.toNat
  if n < 0x80 then [n]
  else if n < 0x800 then
    [0xC0 + n / 64, 0x80 + n % 64]
  else if n < 0x10000 then
    [0xE0 + n / 4096, 0x80 + n / 64 % 64, 0x80 + n % 64]
  else
    [0xF0 + n / 262144, 0x80 + n / 4096 % 64, 0x80 + n / 64 % 64,
     0x80 + n % 64]

def utf8Bytes (s : String) : List Nat := s.data.flatMap utf8Char

/-- Per-round MD5 sine constants. -/
def md5K : List Nat :=
  [3614090360, 3905402710, 606105819, 3250441966, 4118548399, 1200080426,
   2821735955, 4249261313, 1770035416, 2336552879, 4294925233, 2304563134,
   1804603682, 4254626195, 2792965006, 1236535329, 4129170786, 3225465664,
   643717713, 3921069994, 3593408605, 38016083, 3634488961, 3889429448,
   568446438, 3275163606, 4107603335, 1163531501, 2850285829, 4243563512,
   1735328473, 2368359562, 4294588738, 2272392833, 1839030562, 4259657740,
   2763975236, 1272893353, 4139469664, 3200236656, 681279174, 3936430074,
   3572445317, 76029189, 3654602809, 3873151461, 530742520, 3299628645,
   4096336452, 1126891415, 2878612391, 4237533241, 1700485571, 2399980690,
   4293915773, 2240044497, 1873313359, 4264355552, 2734768916, 1309151649,
   4149444226, 3174756917, 718787259, 3951481745]

/-- Per-round MD5 left-rotation amounts. -/
def md5S : List Nat :=
  [7, 12, 17, 22, 7, 12, 17, 22, 7, 12, 17, 22, 7, 12, 17, 22,
   5, 9, 14, 20, 5, 9, 14, 20, 5, 9, 14, 20, 5, 9, 14, 20,
   4, 11, 16, 23, 4, 11, 16, 23, 4, 11, 16, 23, 4, 11, 16, 23,
   6, 10, 15, 21, 6, 10, 15, 21, 6, 10, 15, 21, 6, 10, 15, 21]

/-- 32-bit left rotation over `Nat`. -/
def rotl32 (x n : Nat) : Nat :=
  (x * 2 ^ n + x / 2 ^ (32 - n)) % 2 ^ 32

/-- Bitwise complement within 32 bits. -/
def not32 (x : Nat) : Nat := 2 ^ 32 - 1 - x % 2 ^ 32

/-- MD5 message padding: a `0x80` byte, zeros to 56 mod 64, then the bit
length as eight little-endian bytes. -/
def md5Pad (msg : List Nat) : List Nat :=
  let len := msg.length
  let padLen := (119 - len % 64) % 64 + 1
  let bitLen := (8 * len) % 2 ^ 64
  msg ++ (0x80 :: List.replicate (padLen - 1) 0) ++
    (List.range 8).map (fun i => bitLen / 2 ^ (8 * i) % 256)

/-- Split a list into chunks of 64. -/
def chunks64Go (fuel : Nat) (l : List Nat) : List (List Nat) :=
  match fuel, l with
  | 0, _ => []
  | _, [] => []
  | fuel + 1, l => l.take 64 :: chunks64Go fuel (l.drop 64)

def chunks64 (l : List Nat) : List (List Nat) := chunks64Go l.length l

/-- Decode a 64-byte block into sixteen little-endian 32-bit words. -/
def md5Words (block : List Nat) : List Nat :=
  (List.range 16).map fun i =>
    (block.getD (4 * i) 0) + (block.getD (4 * i + 1) 0) * 256 +
      (block.getD (4 * i + 2) 0) * 65536 + (block.getD (4 * i + 3) 0) * 16777216

/-- One MD5 round: mixes round index `i` into the state `(a, b, c, d)`. -/
def md5Round (m : List Nat) (st : Nat × Nat × Nat × Nat) (i : Nat) :
    Nat × Nat × Nat × Nat :=
  let (a, b, c, d) := st
  let f :=
    if i < 16 then Nat.lor (Nat.land b c) (Nat.land (not32 b) d)
    else if i < 32 then Nat.lor (Nat.land d b) (Nat.land (not32 d) c)
    else if i < 48 then Nat.xor b (Nat.xor c d)
    else Nat.xor c (Nat.lor b (not32 d))
  let g :=
    if i < 16 then i
    else if i < 32 then (5 * i + 1) % 16
    else if i < 48 then (3 * i + 5) % 16
    else (7 * i) % 16
  let sum := (f + a + md5K.getD i 0 + m.getD g 0) % 2 ^ 32
  (d, (b + rotl32 sum (md5S.getD i 0)) % 2 ^ 32, b, c)

/-- Process one 64-byte block against the running state. -/
def md5Block (st : Nat × Nat × Nat × Nat) (block : List Nat) :
    Nat × Nat × Nat × Nat :=
  let words := md5Words block
  let (a0, b0, c0, d0) := st
  let (a, b, c, d) := (List.range 64).foldl (md5Round words) st
  ((a0 + a) % 2 ^ 32, (b0 + b) % 2 ^ 32, (c0 + c) % 2 ^ 32, (d0 + d) % 2 ^ 32)

/-- MD5 digest of a byte list, as sixteen bytes. -/
def md5Digest (msg : List Nat) : List Nat :=
  let st := (md5Pad msg |> chunks64).foldl md5Block
    (0x67452301, 0xefcdab89, 0x98badcfe, 0x10325476)
  let (a, b, c, d) := st
  [a, b, c, d].flatMap fun w =>
    (List.range 4).map fun i => w / 2 ^ (8 * i) % 256

/-- Lower-case hex digit for a nibble. -/
def hexDigit (n : Nat) : Char :=
  if n < 10 then Char.ofNat (48 + n) else Char.ofNat (87 + n)

/-- Hex string of a byte list (`hexdigest()`). -/
def hexOfBytes (bs : List Nat) : String :=
  String.mk (bs.flatMap fun b => [hexDigit (b / 16 % 16), hexDigit (b % 16)])

/-- Take the first `n` characters of a string (`s[:n]`). -/
def strTake (s : String) (n : Nat) : String := String.mk (s.data.take n)

/-- Parse a lower-case hex string to a number (`int(h, 16)`). -/
def hexToNat (s : String) : Nat :=
  s.data.foldl
    (fun acc c =>
      acc * 16 + (if c.toNat ≥ 97 then c.toNat - 87 else c.toNat - 48)) 0

/-- Source constant `DIFFICULTIES` (line 22). -/
def DIFFICULTIES : List String := ["green", "blue", "red", "black"]

/-- Source constant `LANGS` (line 21). -/
def LANGS : List String := ["ru", "ro", "uk", "en"]

/-- Source `stable_random_difficulty` (lines 517–521): deterministic
difficulty from the MD5 of the id — same id, same difficulty. -/
def stable_random_difficulty (trail_id : String) : String :=
  let h := hexOfBytes (md5Digest (utf8Bytes trail_id))
  let n := hexToNat (strTake h 8)
  DIFFICULTIES.getD (n % DIFFICULTIES.length) ""

/-! ## Parsed GPX data and statistics

The XML / filesystem plumbing (`parse_gpx_points`, `get_gpx_track_name`,
`extract_osm_name`, `extract_surface_type` and the OSM-tag scan inside
`determine_trail_type`) is abstracted as data: a `GpxFile` carries exactly
the results those helpers extract from one parsed GPX document.  Latitudes,
longitudes and elevations are modelled as exact rationals. -/

/-- One track point `(lat, lon, ele)` as `parse_gpx_points` returns it. -/
structure GPoint where
  lat : ℚ
  lon : ℚ
  ele : Option ℚ
  deriving DecidableEq

/-- One GPX file, reduced to the data the program extracts from it. -/
structure GpxFile where
  /-- The file's base name without extension (`p.stem`), the trail id. -/
  stem : String
  /-- The file's name with extension (`p.name`), used in the URL. -/
  fname : String
  /-- Result of `parse_gpx_points(p, include_elevation=True)`. -/
  points : List GPoint
  /-- Result of `get_gpx_track_name(p)`. -/
  trackName : Option String
  /-- Result of `extract_osm_name(p)`. -/
  osmName : Option String
  /-- Result of `extract_surface_type(p)`. -/
  surface : Option String
  /-- The OSM tag dict built from `<extensions>` children inside
  `determine_trail_type` (tag name, text). -/
  tags : List (String × String)
  deriving DecidableEq

/-- First-match lookup in the OSM tag dict. -/
def tagGet : List (String × String) → String → Option String
  | [], _ => none
  | (k', v) :: rest, k => if k' = k then some v else tagGet rest k

/-- The statistics dict `calculate_elevation_stats` returns. -/
structure Stats where
  elevation_gain : ℚ
  elevation_loss : ℚ
  avg_gradient : ℚ
  total_distance : ℚ
  has_elevation : Bool
  deriving DecidableEq

/-- Sum of pointwise distances between consecutive points (the
`for i in range(1, len(points))` accumulation), with the haversine
abstracted as `hav`. -/
def totalDist (hav : GPoint → GPoint → ℚ) : List GPoint → ℚ
  | [] => 0
  | [_] => 0
  | p :: q :: rest => qadd (hav p q) (totalDist hav (q :: rest))

/-- Ascent / descent accumulation over consecutive elevations: positive
deltas to the first component, magnitudes of non-positive deltas to the
second. -/
def gainLossGo (prev : ℚ) : List ℚ → ℚ × ℚ
  | [] => (0, 0)
  | e :: rest =>
      let (g, l) := gainLossGo e rest
      if qsub e prev > 0 then (qadd g (qsub e prev), l)
      else (g, qadd l |qsub e prev|)

/-- Ascent and descent over a list of elevations. -/
def gainLoss : List ℚ → ℚ × ℚ
  | [] => (0, 0)
  | e :: rest => gainLossGo e rest

/-- Source `calculate_elevation_stats` (lines 348–407): distance over all
points, ascent/descent over consecutive points that carry elevation,
average gradient as an absolute percentage; `has_elevation` only with at
least two elevation-carrying points. -/
def calculate_elevation_stats (hav : GPoint → GPoint → ℚ)
    (points : List GPoint) : Stats :=
  if points = [] then ⟨0, 0, 0, 0, false⟩
  else
    let eles := points.filterMap (·.ele)
    let td := totalDist hav points
    if eles.length < 2 then ⟨0, 0, 0, td, false⟩
    else
      let gl := gainLoss eles
      let grad := if td > 0 then qmul (qdiv (qsub gl.1 gl.2) td) 100 else 0
      ⟨gl.1, gl.2, |grad|, td, true⟩

/-- Source `determine_difficulty_from_elevation` (lines 409–426): bucket by
average gradient, falling back to the stable hash without elevation. -/
def determine_difficulty_from_elevation (stats : Stats) (trail_id : String) :
    String :=
  if ¬ stats.has_elevation then stable_random_difficulty trail_id
  else if stats.avg_gradient < 5 then "green"
  else if stats.avg_gradient < 10 then "blue"
  else if stats.avg_gradient < 15 then "red"
  else "black"

/-- Source `detect_trail_styles` (lines 428–444). -/
def detect_trail_styles (stats : Stats) (_points : List GPoint) :
    List String :=
  if ¬ stats.has_elevation then ["MTB"]
  else if stats.elevation_loss > qmul stats.elevation_gain 2 ∧
      stats.elevation_loss > 50 then ["MTB", "DH"]
  else ["MTB"]

/-- Source `generate_suitable_text` (lines 446–473).  The `styles` value
flowing in is a JSON list; only an all-string list can match the
tuple-keyed map, anything else falls to the difficulty default. -/
def generate_suitable_text (difficulty : String) (styles : List J) : String :=
  let strs : Option (List String) :=
    styles.mapM fun j => match j with | J.jstr s => some s | _ => none
  let hit : Option String :=
    match strs with
    | some ss =>
        let t := sortStrings ss
        if difficulty = "green" ∧ t = ["MTB"] then
          some "Cross Country / All Mountain"
        else if difficulty = "blue" ∧ t = ["MTB"] then
          some "All Mountain / Cross Country"
        else if difficulty = "blue" ∧ t = ["DH", "MTB"] then
          some "All Mountain / Enduro / Downhill"
        else if difficulty = "red" ∧ t = ["MTB"] then
          some "All Mountain / Enduro"
        else if difficulty = "red" ∧ t = ["DH", "MTB"] then
          some "Enduro / Downhill"
        else if difficulty = "black" ∧ t = ["DH", "MTB"] then
          some "Downhill / Freeride"
        else if difficulty = "black" ∧ t = ["DH"] then
          some "Downhill / Freeride"
        else none
    | none => none
  match hit with
  | some s => s
  | none =>
      if difficulty = "green" then "Cross Country / All Mountain"
      else if difficulty = "blue" then "All Mountain / Cross Country"
      else if difficulty = "red" then "All Mountain / Enduro"
      else "Downhill / Freeride"

/-- Source `detect_region_from_coords` (lines 624–638). -/
def detect_region_from_coords (lat lon : ℚ) : String :=
  if mkRat 227 5 ≤ lat ∧ lat ≤ mkRat 459 10 ∧ mkRat 106 5 ≤ lon ∧
      lon ≤ mkRat 109 5 then "Timiș"
  else if mkRat 447 10 ≤ lat ∧ lat ≤ mkRat 226 5 ∧ mkRat 45 2 ≤ lon ∧
      lon ≤ 23 then "Caraș-Severin"
  else if 47 ≤ lat ∧ lat ≤ mkRat 239 5 ∧ mkRat 47 2 ≤ lon ∧
      lon ≤ mkRat 49 2 then "Cluj"
  else if 46 ≤ lat ∧ lat ≤ mkRat 93 2 ∧ mkRat 49 2 ≤ lon ∧
      lon ≤ mkRat 51 2 then "Brașov"
  else if 45 ≤ lat ∧ lat ≤ mkRat 91 2 ∧ mkRat 51 2 ≤ lon ∧
      lon ≤ mkRat 53 2 then "Prahova"
  else "Romania"

/-- A four-language name row of `TRAIL_TYPE_NAMES`. -/
structure Names4 where
  ru : String
  ro : String
  uk : String
  en : String
  deriving DecidableEq

/-- Source constant `TRAIL_TYPE_NAMES` (lines 35–41). -/
def TRAIL_TYPE_NAMES : String → Option Names4
  | "xc" => some ⟨"XC трейл", "Traseu XC", "XC трейл", "XC Trail"⟩
  | "trail" => some ⟨"Трейл", "Traseu", "Трейл", "Trail"⟩
  | "enduro" => some ⟨"Эндуро", "Enduro", "Ендуро", "Enduro"⟩
  | "dh" => some ⟨"Даунхилл", "Downhill", "Даунхіл", "Downhill"⟩
  | "flow" => some ⟨"Флоу", "Flow", "Флоу", "Flow"⟩
  | _ => none

/-- Source constant `TRAIL_TYPE_DESCRIPTIONS` (lines 44–75), looked up by
trail type then difficulty. -/
def TRAIL_TYPE_DESCRIPTIONS : String → String → Option String
  | "xc", "green" => some "Кросс-кантри трейл с плавными подъемами"
  | "xc", "blue" => some "Кросс-кантри трейл с умеренными подъемами"
  | "xc", "red" => some "Технический кросс-кантри трейл"
  | "xc", "black" => some "Экстремальный технический трейл"
  | "trail", "green" => some "Лесная тропа с несложными участками"
  | "trail", "blue" => some "Трейловая трасса с техническими секциями"
  | "trail", "red" => some "Технически сложная трейловая трасса"
  | "trail", "black" =>
      some "Экстремальная трейловая трасса с высокой технической сложностью"
  | "enduro", "green" => some "Эндуро трасса начального уровня"
  | "enduro", "blue" => some "Эндуро трасса с чередованием подъемов и спусков"
  | "enduro", "red" =>
      some "Эндуро трасса с крутыми спусками и техническими участками"
  | "enduro", "black" =>
      some "Экстремальная эндуро трасса с очень крутыми и техническими секциями"
  | "dh", "green" => some "Даунхилл трасса для начинающих"
  | "dh", "blue" => some "Даунхилл трасса среднего уровня"
  | "dh", "red" => some "Технический даунхилл с крутыми спусками"
  | "dh", "black" =>
      some "Экстремальный даунхилл с очень крутыми и опасными участками"
  | "flow", "green" => some "Флоу-трейл с плавными виражами"
  | "flow", "blue" => some "Флоу-трейл с прыжками и виражами"
  | "flow", "red" => some "Технический флоу-трейл с большими прыжками"
  | "flow", "black" => some "Экстремальный флоу-трейл для профессионалов"
  | _, _ => none

/-- Source constant `SURFACE_DESCRIPTIONS` (lines 78–83). -/
def SURFACE_DESCRIPTIONS : String → Option String
  | "dirt" => some "грунтовое покрытие"
  | "gravel" => some "гравийное покрытие"
  | "paved" => some "асфальтированная поверхность"
  | "ground" => some "естественное покрытие"
  | _ => none

/-- Source constant `DIFFICULTY_DESCRIPTIONS` (lines 86–91). -/
def DIFFICULTY_DESCRIPTIONS : String → Option String
  | "green" => some "Подходит для начинающих райдеров"
  | "blue" =>
      some "Требует базовых навыков катания и хорошей физической подготовки"
  | "red" =>
      some "Рекомендуется для опытных райдеров с хорошей технической подготовкой"
  | "black" =>
      some "ТОЛЬКО для экспертов! Требует отличной техники, опыта и специального оборудования"
  | _ => none

/-- Source `generate_smart_name` (lines 640–665): location-based name in all
four languages; `none` models the `return None` on a file without points
(and the blanket `except`). -/
def generate_smart_name (f : GpxFile) (stats : Stats) (trail_type : String) :
    Option (List (String × J)) :=
  match f.points with
  | [] => none
  | p :: _ =>
      let region := detect_region_from_coords p.lat p.lon
      let lkm := qdiv stats.total_distance 1000
      let tn := (TRAIL_TYPE_NAMES trail_type).getD
        ⟨"Трейл", "Traseu", "Трейл", "Trail"⟩
      some
        [("ru", J.jstr (tn.ru ++ " " ++ region ++ " " ++ fmtFixed 1 lkm ++ " км")),
         ("ro", J.jstr (tn.ro ++ " " ++ region ++ " " ++ fmtFixed 1 lkm ++ " km")),
         ("uk", J.jstr (tn.uk ++ " " ++ region ++ " " ++ fmtFixed 1 lkm ++ " км")),
         ("en", J.jstr (tn.en ++ " " ++ region ++ " " ++ fmtFixed 1 lkm ++ " km"))]

/-- Source `determine_trail_type` (lines 667–751): `mtb:scale` thresholds
first (an unparsable value falls through), then the `highway` rule, then
gradient / elevation-loss heuristics guarded by difficulty. -/
def determine_trail_type (f : GpxFile) (stats : Stats)
    (difficulty : String) : String :=
  let scaleRes : Option String :=
    match tagGet f.tags "mtb:scale" with
    | some s =>
        (pyInt s).map fun n =>
          if n ≥ 4 then "dh"
          else if n ≥ 2 then "enduro"
          else if n ≥ 1 then "trail"
          else "xc"
    | none => none
  match scaleRes with
  | some r => r
  | none =>
      let highwayRes : Option String :=
        match tagGet f.tags "highway" with
        | some hw =>
            if hw = "path" then
              if difficulty = "black" ∨ difficulty = "red" then some "enduro"
              else if difficulty = "blue" then some "trail"
              else none
            else none
        | none => none
      match highwayRes with
      | some r => r
      | none =>
          if ¬ stats.has_elevation then
            if difficulty = "black" then "dh"
            else if difficulty = "red" then "enduro"
            else "trail"
          else if stats.elevation_loss > qmul stats.elevation_gain (mkRat 3 2) ∧
              stats.elevation_loss > 100 then "dh"
          else if difficulty = "black" then
            if stats.avg_gradient > 15 ∨ stats.elevation_loss > 200 then "dh"
            else "enduro"
          else if difficulty = "red" then
            if stats.avg_gradient > 12 then "enduro" else "trail"
          else if stats.avg_gradient > 8 then "trail"
          else if stats.avg_gradient > 5 then "trail"
          else "xc"

/-- Source `generate_description` (lines 475–515).  The `country_code`
parameter is unused by the body, exactly as in the source. -/
def generate_description (f : GpxFile) (stats : Stats) (difficulty : String)
    (_country_code : String) (trail_type : String) : String :=
  let dkm := qdiv stats.total_distance 1000
  let p1 :=
    if stats.has_elevation then
      if stats.elevation_loss > qmul stats.elevation_gain (mkRat 6 5) then
        "Трейл протяженностью " ++ fmtFixed 1 dkm ++
          " км с перепадом высоты " ++ fmtFixed 0 stats.elevation_loss ++ " м"
      else
        "Трейл протяженностью " ++ fmtFixed 1 dkm ++
          " км с набором высоты " ++ fmtFixed 0 stats.elevation_gain ++ " м"
    else "Трейл протяженностью " ++ fmtFixed 1 dkm ++ " км"
  let p2 := (TRAIL_TYPE_DESCRIPTIONS trail_type difficulty).getD
    "Горный велосипедный трейл"
  let surfPart : List String :=
    match f.surface with
    | some s =>
        if s ≠ "" then
          match SURFACE_DESCRIPTIONS s with
          | some d => ["Покрытие: " ++ d]
          | none => []
        else []
    | none => []
  let p4 : List String :=
    match DIFFICULTY_DESCRIPTIONS difficulty with
    | some d => [d]
    | none => []
  String.intercalate ". " ([p1, p2] ++ surfPart ++ p4) ++ "."

/-! ## Translation collaborator and i18n maps -/

/-- Source `translate_text` (lines 802–823).  `avail` is
`TRANSLATOR_AVAILABLE`; `tr` is the external service (a failed call is
modelled by `tr` echoing or returning `""`). -/
def translate_text (avail : Bool) (tr : String → String → String)
    (text target : String) : String :=
  if ¬ avail ∨ text = "" ∨ pyStrip text = "" then text
  else
    let r := tr text target
    if r ≠ "" then r else text

/-- Source `auto_translate_i18n` (lines 825–835). -/
def auto_translate_i18n (avail : Bool) (tr : String → String → String)
    (source_text source_lang : String) : List (String × J) :=
  LANGS.map fun lang =>
    (lang, J.jstr
      (if lang = source_lang then source_text
       else
         let t := translate_text avail tr source_text lang
         if avail ∧ t ≠ "" then t else source_text))

/-- Source `default_i18n` (lines 837–838). -/
def default_i18n (text : String) : List (String × J) :=
  LANGS.map fun k => (k, J.jstr text)

/-- Source `normalize_i18n` (lines 840–846).  (Defined in the source but
not called by the merge engine, which normalizes inline.) -/
def normalize_i18n (d : J) (fallback : String) : List (String × J) :=
  match d with
  | J.jobj kvs => LANGS.map fun k => (k, (dget kvs k).getD (J.jstr fallback))
  | _ => default_i18n fallback

/-! ## The splitter's quality gate

`should_process_track` serializes the single track to a temporary file and
re-parses it; that round trip returns exactly the track's own point
sequence, which the model passes directly. -/

/-- Source `should_process_track` (lines 145–186): reject under 10 points,
under 900 m, or over 50 km. -/
def should_process_track (hav : GPoint → GPoint → ℚ) (pts : List GPoint) :
    Bool × String :=
  if pts.length < 10 then
    (false, "too few points (" ++ toString pts.length ++ ")")
  else
    let stats := calculate_elevation_stats hav pts
    let length := stats.total_distance
    if length < 900 then (false, "too short (" ++ fmtFixed 0 length ++ "m)")
    else if length > 50000 then
      (false, "too long (" ++ fmtFixed 1 (qdiv length 1000) ++ "km)")
    else (true, "")

/-! ## The merge engine: `build_trail_object`

The field-construction blocks of `build_trail_object` (lines 853–1048) are
embedded as one definition per block, in source order. -/

/-- Python truthiness of an optional string. -/
def optTruthy : Option String → Bool
  | some s => decide (s ≠ "")
  | none => false

/-- The difficulty block (lines 875–883): a prior string difficulty whose
stripped value is in the enum wins; else gradient bucketing for unverified
files with elevation; else the stable hash. -/
def buildDifficulty (prev : List (String × J)) (tid : String) (stats : Stats)
    (is_unverified : Bool) : String :=
  let compute : String :=
    if is_unverified && stats.has_elevation then
      determine_difficulty_from_elevation stats tid
    else stable_random_difficulty tid
  match (dget prev "difficulty").getD (J.jstr "") with
  | J.jstr s => if pyStrip s ∈ DIFFICULTIES then pyStrip s else compute
  | _ => compute

/-- The styles block (lines 886–893): a prior non-empty list wins; else
auto-detection for unverified files with elevation; else empty. -/
def buildStyles (prev : List (String × J)) (stats : Stats)
    (pts : List GPoint) (is_unverified : Bool) : List J :=
  let compute : List J :=
    if is_unverified && stats.has_elevation then
      (detect_trail_styles stats pts).map J.jstr
    else []
  match dget prev "styles" with
  | some (J.jarr l) => if l.length > 0 then l else compute
  | _ => compute

/-- The fill value for a language missing from an authored map:
`prev.get("ru") or next((v for v in prev.values() if v), dflt)`. -/
def i18nFillVal (kvs : List (String × J)) (dflt : String) : J :=
  match dget kvs "ru" with
  | some v => if pyTruthy v then v else firstTruthy (dvals kvs) (J.jstr dflt)
  | none => firstTruthy (dvals kvs) (J.jstr dflt)

/-- Normalization of an authored map over the configured languages
(the `for lang in LANGS` loops at lines 902–908, 975–980, 999–1005). -/
def normAuthored (kvs : List (String × J)) (dflt : String) :
    List (String × J) :=
  LANGS.map fun lang =>
    (lang,
      match dget kvs lang with
      | some v => if pyTruthy v then v else i18nFillVal kvs dflt
      | none => i18nFillVal kvs dflt)

/-- The smart-name cascade (lines 910–938 and its verbatim copy at
944–967): GPX track name, then OSM name, then a generated smart name, then
a filename fallback.  The two source copies differ only in the final
fallback (`dictBranch` selects the cleaned-title variant of the
authored-map branch). -/
def genName (avail : Bool) (tr : String → String → String) (f : GpxFile)
    (stats : Stats) (difficulty tid : String) (is_unverified dictBranch : Bool) :
    List (String × J) :=
  let gpx_name := f.trackName.getD ""
  if gpx_name ≠ "" then auto_translate_i18n avail tr gpx_name "ru"
  else
    let osm_name := f.osmName.getD ""
    if osm_name ≠ "" then auto_translate_i18n avail tr osm_name "en"
    else if is_unverified && decide (stats.total_distance > 0) then
      let trail_type := determine_trail_type f stats difficulty
      match generate_smart_name f stats trail_type with
      | some nm => nm
      | none =>
          let cleaned := pyTitle (pyReplaceChar '_' ' ' tid)
          auto_translate_i18n avail tr (cleaned ++ " Trail") "en"
    else if dictBranch then default_i18n (pyTitle (pyReplaceChar '_' ' ' tid))
    else default_i18n tid

/-- The name block (lines 895–967). -/
def buildName (avail : Bool) (tr : String → String → String)
    (prev : List (String × J)) (tid : String) (f : GpxFile) (stats : Stats)
    (difficulty : String) (is_unverified : Bool) : List (String × J) :=
  match dget prev "name" with
  | some (J.jobj kvs) =>
      if (dvals kvs).any pyTruthy then normAuthored kvs tid
      else genName avail tr f stats difficulty tid is_unverified true
  | _ => genName avail tr f stats difficulty tid is_unverified false

/-- The suitable block (lines 969–992). -/
def buildSuitable (avail : Bool) (tr : String → String → String)
    (prev : List (String × J)) (is_unverified : Bool) (difficulty : String)
    (styles : List J) : List (String × J) :=
  let gen : List (String × J) :=
    auto_translate_i18n avail tr (generate_suitable_text difficulty styles) "en"
  match dget prev "suitable" with
  | some (J.jobj kvs) =>
      if (dvals kvs).any pyTruthy then normAuthored kvs ""
      else if is_unverified then gen
      else default_i18n ""
  | _ => if is_unverified then gen else default_i18n ""

/-- The desc block (lines 994–1019). -/
def buildDesc (avail : Bool) (tr : String → String → String)
    (prev : List (String × J)) (f : GpxFile) (stats : Stats)
    (is_unverified : Bool) (country_id : Option String) (difficulty : String) :
    List (String × J) :=
  let gen : List (String × J) :=
    let trail_type := determine_trail_type f stats difficulty
    auto_translate_i18n avail tr
      (generate_description f stats difficulty (country_id.getD "") trail_type)
      "ru"
  match dget prev "desc" with
  | some (J.jobj kvs) =>
      if (dvals kvs).any pyTruthy then normAuthored kvs ""
      else if is_unverified && optTruthy country_id then gen
      else default_i18n ""
  | _ =>
      if is_unverified && optTruthy country_id then gen else default_i18n ""

/-- The statistics of a file as `build_trail_object` computes them: the
initial `stats = {"has_elevation": False}` (read through `.get` defaults,
i.e. all-zero) stands when the file has no points. -/
def statsFor (hav : GPoint → GPoint → ℚ) (f : GpxFile) : Stats :=
  if f.points = [] then ⟨0, 0, 0, 0, false⟩
  else calculate_elevation_stats hav f.points

/-- Source `build_trail_object` (lines 853–1048): assemble the record in
stable key order, append `countryId` when available, and preserve all
non-owned prior keys verbatim.  `gpx_path` always names an existing file
at the two call sites, so the `gpx_path and gpx_path.exists()` guards are
taken; `start_lat` / `start_lon` arrive as JSON values (`None` ↦ `null`). -/
def build_trail_object (avail : Bool) (tr : String → String → String)
    (hav : GPoint → GPoint → ℚ) (prev : List (String × J))
    (tid gpx_url : String) (start_lat start_lon : J) (f : GpxFile)
    (country_id : Option String) (is_unverified : Bool) :
    List (String × J) :=
  let city_id := (dget prev "cityId").getD (J.jstr "chisinau")
  let stats := statsFor hav f
  let difficulty := buildDifficulty prev tid stats is_unverified
  let styles := buildStyles prev stats f.points is_unverified
  let name := buildName avail tr prev tid f stats difficulty is_unverified
  let suitable := buildSuitable avail tr prev is_unverified difficulty styles
  let desc := buildDesc avail tr prev f stats is_unverified country_id
    difficulty
  let base : List (String × J) :=
    [("id", J.jstr tid), ("cityId", city_id), ("styles", J.jarr styles),
     ("name", J.jobj name), ("suitable", J.jobj suitable),
     ("difficulty", J.jstr difficulty), ("desc", J.jobj desc),
     ("gpxUrl", J.jstr gpx_url), ("startLat", start_lat),
     ("startLon", start_lon)]
  let withCountry : List (String × J) :=
    if optTruthy country_id then
      base ++ [("countryId", J.jstr (country_id.getD ""))]
    else
      match dget prev "countryId" with
      | some v => base ++ [("countryId", v)]
      | none => base
  let owned := dkeys withCountry
  withCountry ++ prev.filter fun kv => ¬ owned.contains kv.1

/-! ## The merge engine: `upsert_file`

Directory scanning and file I/O are plumbing: the scan result arrives as
`files` — the `(path, country_code)` pairs of `all_gpx_files`, root-folder
files (country `none`) first, then country-subfolder files, each group
sorted, exactly as built at lines 1082–1096 — and the loaded catalog
arrives as `existing_root` (`none` when the file does not exist).  The
returned value is the document `save_root` writes. -/

/-- Last-wins lookup of a stem in the scan list (`file_by_id` is a dict
built by assignment, so a later file with the same stem shadows an earlier
one). -/
def fileKey : List (GpxFile × Option String) → String →
    Option (GpxFile × Option String)
  | [], _ => none
  | (f, c) :: rest, s =>
      match fileKey rest s with
      | some r => some r
      | none => if f.stem = s then some (f, c) else none

/-- Last-wins lookup of a trail id in the existing-record index
(`existing_by_id` is a dict built by assignment over the old list). -/
def idxLookup : List (J × List (String × J)) → J →
    Option (List (String × J))
  | [], _ => none
  | (k, v) :: rest, tid =>
      match idxLookup rest tid with
      | some r => some r
      | none => if k = tid then some v else none

/-- Source constant `COUNTRY_CODE_TO_FOLDER` (line 32). -/
def COUNTRY_CODE_TO_FOLDER : String → Option String
  | "ro" => some "gpx_romania"
  | "de" => some "gpx_germany"
  | "pl" => some "gpx_poland"
  | _ => none

/-- URL construction (lines 1121–1125 / 1143–1147). -/
def mkGpxUrl (raw_base gpx_folder_name : String) (c : Option String)
    (fname : String) : String :=
  if optTruthy c then
    let code := c.getD ""
    raw_base ++ "/" ++ gpx_folder_name ++ "/" ++
      ((COUNTRY_CODE_TO_FOLDER code).getD ("gpx_" ++ code)) ++ "/" ++ fname
  else raw_base ++ "/" ++ gpx_folder_name ++ "/" ++ fname

/-- The extra-safety pass (lines 1154–1158): add `cityId` if a record
somehow lacks it. -/
def citySafety (kvs : List (String × J)) : List (String × J) :=
  if (dget kvs "cityId").isSome then kvs
  else kvs ++ [("cityId", J.jstr "chisinau")]

/-- One reconciled record, from the file the id resolved to: start
coordinates from the file's first point when present, else retained from
the prior record (`None` ↦ `null` for a brand-new record, whose prior
record is `{}`), URL from the file location — then `build_trail_object`
(the shared tail of the two loop bodies, lines 1110–1130 / 1137–1152). -/
def buildFromFile (avail : Bool) (tr : String → String → String)
    (hav : GPoint → GPoint → ℚ) (gpx_folder_name raw_base : String)
    (is_unverified : Bool) (prev : List (String × J)) (s : String)
    (pc : GpxFile × Option String) : List (String × J) :=
  let p := pc.1
  let country := pc.2
  let startLat : J :=
    match p.points.head? with
    | some pt => J.jnum pt.lat
    | none => (dget prev "startLat").getD J.null
  let startLon : J :=
    match p.points.head? with
    | some pt => J.jnum pt.lon
    | none => (dget prev "startLon").getD J.null
  build_trail_object avail tr hav prev s
    (mkGpxUrl raw_base gpx_folder_name country p.fname)
    startLat startLon p country is_unverified

/-- The identity→record index over the old trails list (`existing_by_id`
insertion order; lines 1074–1080): dict records with a truthy id. -/
def idxOf (existing_trails : List J) : List (J × List (String × J)) :=
  existing_trails.filterMap fun t =>
    match t with
    | J.jobj kvs =>
        match dget kvs "id" with
        | some v => if pyTruthy v then some (v, kvs) else none
        | none => none
    | _ => none

/-- The reconciled trails list (lines 1098–1158): previously known ids
first in their old order, then newly discovered ids sorted, then the
`cityId` safety pass. -/
def mkTrails (avail : Bool) (tr : String → String → String)
    (hav : GPoint → GPoint → ℚ) (files : List (GpxFile × Option String))
    (gpx_folder_name raw_base : String) (is_unverified : Bool)
    (existing_trails : List J) : List (List (String × J)) :=
  let idxPairs := idxOf existing_trails
  let order : List J := idxPairs.map (·.1)
  let partA : List (List (String × J)) :=
    order.filterMap fun tid =>
      match tid with
      | J.jstr s =>
          match fileKey files s with
          | some pc =>
              some (buildFromFile avail tr hav gpx_folder_name raw_base
                is_unverified ((idxLookup idxPairs (J.jstr s)).getD []) s pc)
          | none => none
      | _ => none
  let newIds : List String :=
    sortStrings (dedupStr (files.map fun fc => fc.1.stem))
  let partB : List (List (String × J)) :=
    newIds.filterMap fun s =>
      if (idxLookup idxPairs (J.jstr s)).isSome then none
      else
        match fileKey files s with
        | some pc =>
            some (buildFromFile avail tr hav gpx_folder_name raw_base
              is_unverified [] s pc)
        | none => none
  (partA ++ partB).map citySafety

/-- Source `upsert_file` (lines 1050–1178): load, index, reconcile in old
order, append new ids sorted, ensure `cityId`, compare masked roots and
stamp `updatedAt`. -/
def upsert_file (avail : Bool) (tr : String → String → String)
    (hav : GPoint → GPoint → ℚ) (today : String)
    (files : List (GpxFile × Option String))
    (gpx_folder_name raw_base : String) (default_version : Int)
    (is_unverified : Bool) (existing_root : Option J) : J :=
  let wfData : Option (List (String × J) × List J) :=
    match existing_root with
    | some (J.jobj kvs) =>
        match dget kvs "trails" with
        | some (J.jarr ts) => some (kvs, ts)
        | _ => none
    | _ => none
  let version : J :=
    match wfData with
    | some (kvs, _) => (dget kvs "version").getD (J.jnum (mkRat default_version 1))
    | none => J.jnum (mkRat default_version 1)
  let updated_at : J :=
    match wfData with
    | some (kvs, _) => (dget kvs "updatedAt").getD (J.jstr today)
    | none => J.jstr today
  let existing_trails : List J :=
    match wfData with
    | some (_, ts) => ts
    | none => []
  let new_trails := mkTrails avail tr hav files gpx_folder_name raw_base
    is_unverified existing_trails
  let newRootBase : List (String × J) :=
    [("version", version), ("updatedAt", updated_at),
     ("trails", J.jarr (new_trails.map J.jobj))]
  match wfData with
  | some (kvs, _) =>
      let old_compare := dset kvs "updatedAt" (J.jstr "X")
      let new_compare := dset newRootBase "updatedAt" (J.jstr "X")
      if roots_equal (J.jobj old_compare) (J.jobj new_compare) then
        J.jobj (dset newRootBase "updatedAt"
          ((dget kvs "updatedAt").getD updated_at))
      else J.jobj (dset newRootBase "updatedAt" (J.jstr today))
  | none => J.jobj newRootBase

/-! ## The haversine formula over the reals

The inline distance computation of `calculate_elevation_stats`
(lines 362–375) embedded exactly over `ℝ`: degree→radian conversion,
the haversine half-chord, `2 * asin (sqrt a)`, sphere radius 6 371 000 m. -/

/-- A track point as the distance loop consumes it (latitude and longitude
in degrees; elevation does not enter the distance). -/
structure RPoint where
  lat : ℝ
  lon : ℝ

noncomputable section

/-- Degrees to radians, `math.radians`. -/
def radians (x : ℝ) : ℝ := x * Real.pi / 180

/-- The haversine great-circle distance of lines 366–373. -/
def haversineDist (p q : RPoint) : ℝ :=
  let lat1 := radians p.lat
  let lon1 := radians p.lon
  let lat2 := radians q.lat
  let lon2 := radians q.lon
  let dlat := lat2 - lat1
  let dlon := lon2 - lon1
  let a := Real.sin (dlat / 2) ^ 2 +
    Real.cos lat1 * Real.cos lat2 * Real.sin (dlon / 2) ^ 2
  let c := 2 * Real.arcsin (Real.sqrt a)
  6371000 * c

/-- The `total_distance` accumulation of lines 361–375: sum of haversine
distances between consecutive points. -/
def totalDistR : List RPoint → ℝ
  | [] => 0
  | [_] => 0
  | p :: q :: rest => haversineDist p q + totalDistR (q :: rest)

/-- The point of the unit sphere at a given latitude/longitude (radians). -/
def sphVec (lat lon : ℝ) : EuclideanSpace ℝ (Fin 3) :=
  ![Real.cos lat * Real.cos lon, Real.cos lat * Real.sin lon, Real.sin lat]

/-- The real inner product of two vectors of `ℝ³`, as a plain function. -/
def rinner (u v : EuclideanSpace ℝ (Fin 3)) : ℝ := inner u v

end

/-! ## Statement helpers -/

/-- The `trails` list of a catalog document (empty for other shapes). -/
def trailsOf (root : J) : List J :=
  match root with
  | J.jobj kvs =>
      match dget kvs "trails" with
      | some (J.jarr ts) => ts
      | _ => []
  | _ => []

/-- The `updatedAt` field of a catalog document. -/
def updatedAtOf (root : J) : Option J :=
  match root with
  | J.jobj kvs => dget kvs "updatedAt"
  | _ => none

/-- Whether a loaded document has the expected object shape
(`isinstance(existing_root, dict) and isinstance(existing_root.get("trails"), list)`). -/
def wellFormedRoot (root : J) : Bool :=
  match root with
  | J.jobj kvs =>
      match dget kvs "trails" with
      | some (J.jarr _) => true
      | _ => false
  | _ => false

/-- A language map in configured shape whose four values are all truthy
(used to characterize when the merge keeps an i18n map verbatim). -/
def fullTruthy (m : List (String × J)) : Prop :=
  ∃ a b c d : J, m = [("ru", a), ("ro", b), ("uk", c), ("en", d)] ∧
    pyTruthy a = true ∧ pyTruthy b = true ∧ pyTruthy c = true ∧
    pyTruthy d = true

/-- Modelled from the spec (§4.2): the analyzer contract the specification
states — "Output: TrailStats, or undefined if fewer than 2 points" — as an
`Option`-valued function, for comparison against the source's total
`calculate_elevation_stats`. -/
def analyzerSpecContract (hav : GPoint → GPoint → ℚ) (points : List GPoint) :
    Option Stats :=
  if points.length < 2 then none
  else some (calculate_elevation_stats hav points)

/-- The record the reconciliation produces for a given stem, as a function
of the stem and the old index (a proof-side repackaging of the two loop
bodies: previously known ids pass their indexed record, new ids pass `{}`,
and the `getD []` makes the two coincide). -/
def recFromIdx (avail : Bool) (tr : String → String → String)
    (hav : GPoint → GPoint → ℚ) (files : List (GpxFile × Option String))
    (gpx_folder_name raw_base : String) (is_unverified : Bool)
    (idx : List (J × List (String × J))) (s : String) : List (String × J) :=
  match fileKey files s with
  | some pc =>
      buildFromFile avail tr hav gpx_folder_name raw_base is_unverified
        ((idxLookup idx (J.jstr s)).getD []) s pc
  | none => []

/-- The stems the old-order loop processes, in order (proof-side view of
`partA`'s index set). -/
def stemsOfOrder (files : List (GpxFile × Option String)) (order : List J) :
    List String :=
  order.filterMap fun tid =>
    match tid with
    | J.jstr s => if (fileKey files s).isSome then some s else none
    | _ => none

/-! # Lemmas

Utility lemmas about the dict model, then the record-level lemmas that
drive the per-claim theorems. -/

theorem dget_append_some {xs : List (String × J)} {k : String} {v : J}
    (ys : List (String × J)) (h : dget xs k = some v) :
    dget (xs ++ ys) k = some v := by
  induction xs with
  | nil => simp [dget] at h
  | cons kv rest ih =>
      obtain ⟨k', v'⟩ := kv
      simp only [dget, List.cons_append] at h ⊢
      by_cases hk : k' = k
      · simpa [hk] using h
      · simp only [hk, if_false] at h ⊢
        exact ih h

theorem dget_append_none {xs : List (String × J)} {k : String}
    (ys : List (String × J)) (h : dget xs k = none) :
    dget (xs ++ ys) k = dget ys k := by
  induction xs with
  | nil => simp
  | cons kv rest ih =>
      obtain ⟨k', v'⟩ := kv
      simp only [dget, List.cons_append] at h ⊢
      by_cases hk : k' = k
      · simp [hk] at h
      · simp only [hk, if_false] at h ⊢
        exact ih h

theorem dget_filter_none {xs : List (String × J)} {k : String}
    (p : String × J → Bool) (h : dget xs k = none) :
    dget (xs.filter p) k = none := by
  induction xs with
  | nil => simp [dget]
  | cons kv rest ih =>
      obtain ⟨k', v'⟩ := kv
      simp only [dget] at h
      by_cases hk : k' = k
      · simp [hk] at h
      · simp only [hk, if_false] at h
        simp only [List.filter_cons]
        by_cases hp : p (k', v') = true <;> simp only [hp, if_true, if_false]
        · simp only [dget, hk, if_false]
          exact ih h
        · exact ih h

theorem roots_equal_refl (a : J) : roots_equal a a = true := by
  simp [roots_equal]

section BuildLemmas

variable (avail : Bool) (tr : String → String → String)
  (hav : GPoint → GPoint → ℚ) (prev : List (String × J)) (tid url : String)
  (slat slon : J) (f : GpxFile) (cid : Option String) (unv : Bool)

/-- The record a build produces: the ten owned fields in stable order,
then a tail (the optional `countryId` and the preserved extra keys). -/
theorem build_shape :
    ∃ rest, build_trail_object avail tr hav prev tid url slat slon f cid unv =
      [("id", J.jstr tid),
       ("cityId", (dget prev "cityId").getD (J.jstr "chisinau")),
       ("styles", J.jarr (buildStyles prev (statsFor hav f) f.points unv)),
       ("name", J.jobj (buildName avail tr prev tid f (statsFor hav f)
         (buildDifficulty prev tid (statsFor hav f) unv) unv)),
       ("suitable", J.jobj (buildSuitable avail tr prev unv
         (buildDifficulty prev tid (statsFor hav f) unv)
         (buildStyles prev (statsFor hav f) f.points unv))),
       ("difficulty", J.jstr (buildDifficulty prev tid (statsFor hav f) unv)),
       ("desc", J.jobj (buildDesc avail tr prev f (statsFor hav f) unv cid
         (buildDifficulty prev tid (statsFor hav f) unv))),
       ("gpxUrl", J.jstr url), ("startLat", slat),
       ("startLon", slon)] ++ rest := by
  unfold build_trail_object
  dsimp only
  by_cases hc : optTruthy cid = true
  · simp only [hc, if_true]
    exact ⟨_, List.append_assoc _ _ _⟩
  · simp only [Bool.not_eq_true] at hc
    simp only [hc, Bool.false_eq_true, if_false]
    cases hco : dget prev "countryId" with
    | some v => exact ⟨_, List.append_assoc _ _ _⟩
    | none => exact ⟨_, rfl⟩

theorem dget_build_id :
    dget (build_trail_object avail tr hav prev tid url slat slon f cid unv)
      "id" = some (J.jstr tid) := by
  obtain ⟨rest, h⟩ := build_shape avail tr hav prev tid url slat slon f cid unv
  rw [h]; rfl

theorem dget_build_cityId :
    dget (build_trail_object avail tr hav prev tid url slat slon f cid unv)
      "cityId" = some ((dget prev "cityId").getD (J.jstr "chisinau")) := by
  obtain ⟨rest, h⟩ := build_shape avail tr hav prev tid url slat slon f cid unv
  rw [h]; rfl

theorem dget_build_styles :
    dget (build_trail_object avail tr hav prev tid url slat slon f cid unv)
      "styles" =
      some (J.jarr (buildStyles prev (statsFor hav f) f.points unv)) := by
  obtain ⟨rest, h⟩ := build_shape avail tr hav prev tid url slat slon f cid unv
  rw [h]; rfl

theorem dget_build_name :
    dget (build_trail_object avail tr hav prev tid url slat slon f cid unv)
      "name" =
      some (J.jobj (buildName avail tr prev tid f (statsFor hav f)
        (buildDifficulty prev tid (statsFor hav f) unv) unv)) := by
  obtain ⟨rest, h⟩ := build_shape avail tr hav prev tid url slat slon f cid unv
  rw [h]; rfl

theorem dget_build_suitable :
    dget (build_trail_object avail tr hav prev tid url slat slon f cid unv)
      "suitable" =
      some (J.jobj (buildSuitable avail tr prev unv
        (buildDifficulty prev tid (statsFor hav f) unv)
        (buildStyles prev (statsFor hav f) f.points unv))) := by
  obtain ⟨rest, h⟩ := build_shape avail tr hav prev tid url slat slon f cid unv
  rw [h]; rfl

theorem dget_build_difficulty :
    dget (build_trail_object avail tr hav prev tid url slat slon f cid unv)
      "difficulty" =
      some (J.jstr (buildDifficulty prev tid (statsFor hav f) unv)) := by
  obtain ⟨rest, h⟩ := build_shape avail tr hav prev tid url slat slon f cid unv
  rw [h]; rfl

theorem dget_build_desc :
    dget (build_trail_object avail tr hav prev tid url slat slon f cid unv)
      "desc" =
      some (J.jobj (buildDesc avail tr prev f (statsFor hav f) unv cid
        (buildDifficulty prev tid (statsFor hav f) unv))) := by
  obtain ⟨rest, h⟩ := build_shape avail tr hav prev tid url slat slon f cid unv
  rw [h]; rfl

theorem dget_build_gpxUrl :
    dget (build_trail_object avail tr hav prev tid url slat slon f cid unv)
      "gpxUrl" = some (J.jstr url) := by
  obtain ⟨rest, h⟩ := build_shape avail tr hav prev tid url slat slon f cid unv
  rw [h]; rfl

theorem dget_build_startLat :
    dget (build_trail_object avail tr hav prev tid url slat slon f cid unv)
      "startLat" = some slat := by
  obtain ⟨rest, h⟩ := build_shape avail tr hav prev tid url slat slon f cid unv
  rw [h]; rfl

theorem dget_build_startLon :
    dget (build_trail_object avail tr hav prev tid url slat slon f cid unv)
      "startLon" = some slon := by
  obtain ⟨rest, h⟩ := build_shape avail tr hav prev tid url slat slon f cid unv
  rw [h]; rfl

end BuildLemmas

/-! ### i18n map lemmas -/

theorem string_append_ne_left (x : String) {y : String} (hy : y ≠ "") :
    x ++ y ≠ "" := by
  intro h
  apply hy
  have h2 : x.data ++ y.data = [] := by
    have := congrArg String.data h
    simpa using this
  have h3 := (List.append_eq_nil.mp h2).2
  obtain ⟨d⟩ := y
  simp only at h3
  subst h3
  rfl

theorem translate_pick_ne {avail : Bool} {tr : String → String → String}
    {src : String} (lang0 lang : String) (h : src ≠ "") :
    (if lang = lang0 then src
     else
       let t := translate_text avail tr src lang
       if avail ∧ t ≠ "" then t else src) ≠ "" := by
  split
  · exact h
  · dsimp only
    split
    · next hc => exact hc.2
    · exact h

theorem auto_translate_fullTruthy (avail : Bool)
    (tr : String → String → String) {src : String} (lang0 : String)
    (h : src ≠ "") : fullTruthy (auto_translate_i18n avail tr src lang0) := by
  refine ⟨_, _, _, _, rfl, ?_, ?_, ?_, ?_⟩ <;>
    simpa [pyTruthy] using translate_pick_ne lang0 _ h

theorem default_i18n_fullTruthy {t : String} (h : t ≠ "") :
    fullTruthy (default_i18n t) :=
  ⟨_, _, _, _, rfl, by simpa [pyTruthy] using h, by simpa [pyTruthy] using h,
    by simpa [pyTruthy] using h, by simpa [pyTruthy] using h⟩

theorem generate_smart_name_fullTruthy {f : GpxFile} {stats : Stats}
    {tt : String} {m : List (String × J)}
    (h : generate_smart_name f stats tt = some m) : fullTruthy m := by
  unfold generate_smart_name at h
  cases hp : f.points with
  | nil => rw [hp] at h; exact absurd h (by simp)
  | cons p rest =>
      rw [hp] at h
      dsimp only at h
      injection h with h
      subst h
      refine ⟨_, _, _, _, rfl, ?_, ?_, ?_, ?_⟩ <;>
        · simp only [pyTruthy, decide_eq_true_eq]
          exact string_append_ne_left _ (by decide)

theorem firstTruthy_of_any {vals : List J} (dflt : J)
    (h : vals.any pyTruthy = true) :
    pyTruthy (firstTruthy vals dflt) = true := by
  unfold firstTruthy
  rcases hf : vals.find? pyTruthy with _ | w
  · rw [List.find?_eq_none] at hf
    rw [List.any_eq_true] at h
    obtain ⟨x, hx, hpx⟩ := h
    exact absurd hpx (by simpa using hf x hx)
  · exact List.find?_some hf

theorem i18nFillVal_truthy {kvs : List (String × J)} (dflt : String)
    (h : (dvals kvs).any pyTruthy = true) :
    pyTruthy (i18nFillVal kvs dflt) = true := by
  unfold i18nFillVal
  rcases hr : dget kvs "ru" with _ | v
  · exact firstTruthy_of_any _ h
  · by_cases hv : pyTruthy v = true
    · simpa [hv]
    · simp only [Bool.not_eq_true] at hv
      simp only [hv, Bool.false_eq_true, if_false]
      exact firstTruthy_of_any _ h

theorem normAuthored_fullTruthy {kvs : List (String × J)} (dflt : String)
    (h : (dvals kvs).any pyTruthy = true) :
    fullTruthy (normAuthored kvs dflt) := by
  refine ⟨_, _, _, _, rfl, ?_, ?_, ?_, ?_⟩ <;>
  · dsimp only
    split
    · split
      · next hv => exact hv
      · exact i18nFillVal_truthy dflt h
    · exact i18nFillVal_truthy dflt h

theorem normAuthored_of_fullTruthy {m : List (String × J)} (dflt : String)
    (h : fullTruthy m) : normAuthored m dflt = m := by
  obtain ⟨a, b, c, d, hm, ha, hb, hc, hd⟩ := h
  subst hm
  simp [normAuthored, LANGS, dget, ha, hb, hc, hd]

theorem dvals_any_of_fullTruthy {m : List (String × J)} (h : fullTruthy m) :
    (dvals m).any pyTruthy = true := by
  obtain ⟨a, b, c, d, hm, ha, _, _, _⟩ := h
  subst hm
  simp [dvals, ha]

theorem dkeys_auto_translate (avail : Bool) (tr : String → String → String)
    (src lang0 : String) :
    dkeys (auto_translate_i18n avail tr src lang0) = LANGS := rfl

theorem dkeys_default_i18n (t : String) : dkeys (default_i18n t) = LANGS := rfl

theorem dkeys_normAuthored (kvs : List (String × J)) (dflt : String) :
    dkeys (normAuthored kvs dflt) = LANGS := rfl

theorem dkeys_generate_smart_name {f : GpxFile} {stats : Stats} {tt : String}
    {m : List (String × J)} (h : generate_smart_name f stats tt = some m) :
    dkeys m = LANGS := by
  unfold generate_smart_name at h
  cases hp : f.points with
  | nil => rw [hp] at h; exact absurd h (by simp)
  | cons p rest =>
      rw [hp] at h
      dsimp only at h
      injection h with h
      subst h
      rfl

theorem dkeys_genName (avail : Bool) (tr : String → String → String)
    (f : GpxFile) (stats : Stats) (d tid : String) (unv dictB : Bool) :
    dkeys (genName avail tr f stats d tid unv dictB) = LANGS := by
  simp only [genName]
  split
  · exact dkeys_auto_translate ..
  · split
    · exact dkeys_auto_translate ..
    · split
      · split
        · next nm hs => exact dkeys_generate_smart_name hs
        · exact dkeys_auto_translate ..
      · split
        · exact dkeys_default_i18n _
        · exact dkeys_default_i18n _

theorem dkeys_buildName (avail : Bool) (tr : String → String → String)
    (prev : List (String × J)) (tid : String) (f : GpxFile) (stats : Stats)
    (d : String) (unv : Bool) :
    dkeys (buildName avail tr prev tid f stats d unv) = LANGS := by
  unfold buildName
  split
  · split
    · exact dkeys_normAuthored ..
    · exact dkeys_genName ..
  · exact dkeys_genName ..

theorem dkeys_buildSuitable (avail : Bool) (tr : String → String → String)
    (prev : List (String × J)) (unv : Bool) (d : String) (st : List J) :
    dkeys (buildSuitable avail tr prev unv d st) = LANGS := by
  unfold buildSuitable
  split
  · split
    · exact dkeys_normAuthored ..
    · split
      · exact dkeys_auto_translate ..
      · exact dkeys_default_i18n _
  · split
    · exact dkeys_auto_translate ..
    · exact dkeys_default_i18n _

theorem dkeys_buildDesc (avail : Bool) (tr : String → String → String)
    (prev : List (String × J)) (f : GpxFile) (stats : Stats) (unv : Bool)
    (cid : Option String) (d : String) :
    dkeys (buildDesc avail tr prev f stats unv cid d) = LANGS := by
  unfold buildDesc
  split
  · split
    · exact dkeys_normAuthored ..
    · split
      · exact dkeys_auto_translate ..
      · exact dkeys_default_i18n _
  · split
    · exact dkeys_auto_translate ..
    · exact dkeys_default_i18n _

/-! ### Difficulty and styles lemmas -/

theorem getD_DIFFICULTIES_mem (m : Nat) :
    DIFFICULTIES.getD (m % 4) "" ∈ DIFFICULTIES := by
  have h : m % 4 = 0 ∨ m % 4 = 1 ∨ m % 4 = 2 ∨ m % 4 = 3 := by omega
  rcases h with h | h | h | h <;> rw [h] <;> decide

theorem stable_random_difficulty_mem (t : String) :
    stable_random_difficulty t ∈ DIFFICULTIES := by
  unfold stable_random_difficulty
  exact getD_DIFFICULTIES_mem _

theorem determine_difficulty_mem (stats : Stats) (tid : String) :
    determine_difficulty_from_elevation stats tid ∈ DIFFICULTIES := by
  unfold determine_difficulty_from_elevation
  split
  · exact stable_random_difficulty_mem tid
  · split
    · decide
    · split
      · decide
      · split <;> decide

theorem buildDifficulty_mem (prev : List (String × J)) (tid : String)
    (stats : Stats) (unv : Bool) :
    buildDifficulty prev tid stats unv ∈ DIFFICULTIES := by
  unfold buildDifficulty
  dsimp only
  have hcomp :
      (if unv && stats.has_elevation then
        determine_difficulty_from_elevation stats tid
      else stable_random_difficulty tid) ∈ DIFFICULTIES := by
    split
    · exact determine_difficulty_mem stats tid
    · exact stable_random_difficulty_mem tid
  split
  · split
    · next h => exact h
    · exact hcomp
  · exact hcomp

theorem pyStrip_mem_self {d : String} (h : d ∈ DIFFICULTIES) :
    pyStrip d = d := by
  simp only [DIFFICULTIES, List.mem_cons, List.mem_singleton,
    List.not_mem_nil, or_false] at h
  rcases h with rfl | rfl | rfl | rfl <;> rfl

theorem buildDifficulty_of_prev {r : List (String × J)} {tid : String}
    {stats : Stats} {unv : Bool} {d : String}
    (hd : dget r "difficulty" = some (J.jstr d)) (hmem : d ∈ DIFFICULTIES) :
    buildDifficulty r tid stats unv = d := by
  unfold buildDifficulty
  rw [hd]
  dsimp only [Option.getD]
  rw [pyStrip_mem_self hmem]
  simp [hmem]

theorem detect_trail_styles_ne_nil (stats : Stats) (pts : List GPoint) :
    detect_trail_styles stats pts ≠ [] := by
  unfold detect_trail_styles
  split
  · simp
  · split <;> simp

theorem buildStyles_empty_cond {prev : List (String × J)} {stats : Stats}
    {pts : List GPoint} {unv : Bool}
    (h : buildStyles prev stats pts unv = []) :
    (unv && stats.has_elevation) = false := by
  by_cases hc : (unv && stats.has_elevation) = true
  · exfalso
    unfold buildStyles at h
    dsimp only at h
    rw [hc, if_pos rfl] at h
    have hne := detect_trail_styles_ne_nil stats pts
    split at h
    · split at h
      · next hl => simp [h] at hl
      · exact hne (by simpa using h)
    · exact hne (by simpa using h)
  · simpa using hc

theorem buildStyles_of_prev_nonempty {r : List (String × J)} {st : List J}
    {stats : Stats} {pts : List GPoint} {unv : Bool}
    (hr : dget r "styles" = some (J.jarr st)) (hne : st ≠ []) :
    buildStyles r stats pts unv = st := by
  unfold buildStyles
  rw [hr]
  simp [List.length_pos, hne]

theorem buildStyles_of_prev_nil {r : List (String × J)} {stats : Stats}
    {pts : List GPoint} {unv : Bool}
    (hr : dget r "styles" = some (J.jarr []))
    (hc : (unv && stats.has_elevation) = false) :
    buildStyles r stats pts unv = [] := by
  unfold buildStyles
  rw [hr]
  simp [hc]

theorem buildStyles_stable {prev r : List (String × J)} {stats : Stats}
    {pts : List GPoint} {unv : Bool}
    (hr : dget r "styles" = some (J.jarr (buildStyles prev stats pts unv))) :
    buildStyles r stats pts unv = buildStyles prev stats pts unv := by
  by_cases hnil : buildStyles prev stats pts unv = []
  · rw [hnil] at hr ⊢
    exact buildStyles_of_prev_nil hr (buildStyles_empty_cond hnil)
  · exact buildStyles_of_prev_nonempty hr hnil

/-! ### Generated-text non-emptiness -/

theorem generate_suitable_text_ne (d : String) (st : List J) :
    generate_suitable_text d st ≠ "" := by
  unfold generate_suitable_text
  dsimp only
  split
  · next s hs =>
      intro h
      subst h
      split at hs
      · split_ifs at hs <;> simp_all
      · exact Option.noConfusion hs
  · split_ifs <;> decide

theorem generate_description_ne (f : GpxFile) (stats : Stats)
    (d c tt : String) : generate_description f stats d c tt ≠ "" := by
  unfold generate_description
  exact string_append_ne_left _ (by decide)

/-! ### Name, suitable and desc stability -/

theorem genName_dichotomy (avail : Bool) (tr : String → String → String)
    (f : GpxFile) (stats : Stats) (d tid : String) (unv dictB : Bool) :
    fullTruthy (genName avail tr f stats d tid unv dictB) ∨
    (genName avail tr f stats d tid unv dictB = default_i18n "" ∧
     f.trackName.getD "" = "" ∧ f.osmName.getD "" = "" ∧
     (unv && decide (stats.total_distance > 0)) = false ∧
     pyTitle (pyReplaceChar '_' ' ' tid) = "") := by
  simp only [genName]
  split
  · next hcond => left; exact auto_translate_fullTruthy _ _ _ hcond
  · next hcond =>
      have hg : f.trackName.getD "" = "" := not_ne_iff.mp hcond
      split
      · next hosm => left; exact auto_translate_fullTruthy _ _ _ hosm
      · next hosm' =>
          have hosm : f.osmName.getD "" = "" := not_ne_iff.mp hosm'
          split
          · split
            · next nm hs => left; exact generate_smart_name_fullTruthy hs
            · left
              exact auto_translate_fullTruthy _ _ _
                (string_append_ne_left _ (by decide))
          · next hcond3 =>
              have hc3 : (unv && decide (stats.total_distance > 0)) = false := by
                simpa using hcond3
              split
              · by_cases ht : pyTitle (pyReplaceChar '_' ' ' tid) = ""
                · right; exact ⟨by rw [ht], hg, hosm, hc3, ht⟩
                · left; exact default_i18n_fullTruthy ht
              · by_cases ht : tid = ""
                · right
                  refine ⟨?_, hg, hosm, hc3, ?_⟩ <;> subst ht <;> rfl
                · left; exact default_i18n_fullTruthy ht

theorem buildName_dichotomy (avail : Bool) (tr : String → String → String)
    (prev : List (String × J)) (tid : String) (f : GpxFile) (stats : Stats)
    (d : String) (unv : Bool) :
    fullTruthy (buildName avail tr prev tid f stats d unv) ∨
    (buildName avail tr prev tid f stats d unv = default_i18n "" ∧
     f.trackName.getD "" = "" ∧ f.osmName.getD "" = "" ∧
     (unv && decide (stats.total_distance > 0)) = false ∧
     pyTitle (pyReplaceChar '_' ' ' tid) = "") := by
  unfold buildName
  split
  · split
    · next hany => left; exact normAuthored_fullTruthy _ hany
    · exact genName_dichotomy avail tr f stats d tid unv true
  · exact genName_dichotomy avail tr f stats d tid unv false

theorem genName_of_conds {avail : Bool} {tr : String → String → String}
    {f : GpxFile} {stats : Stats} {d tid : String} {unv : Bool}
    (hg : f.trackName.getD "" = "") (hosm : f.osmName.getD "" = "")
    (hc3 : (unv && decide (stats.total_distance > 0)) = false)
    (ht : pyTitle (pyReplaceChar '_' ' ' tid) = "") :
    genName avail tr f stats d tid unv true = default_i18n "" := by
  simp only [genName]
  rw [if_neg (by simpa using hg), if_neg (by simpa using hosm)]
  rw [hc3]
  simp only [Bool.false_eq_true, if_false, if_true, ht]

theorem buildName_stable {avail : Bool} {tr : String → String → String}
    {r prev : List (String × J)} {tid : String} {f : GpxFile} {stats : Stats}
    {d : String} {unv : Bool}
    (hr : dget r "name" =
      some (J.jobj (buildName avail tr prev tid f stats d unv))) :
    buildName avail tr r tid f stats d unv =
      buildName avail tr prev tid f stats d unv := by
  rcases buildName_dichotomy avail tr prev tid f stats d unv with
    hft | ⟨he, hg, hosm, hc3, ht⟩
  · set m := buildName avail tr prev tid f stats d unv with hm
    unfold buildName
    rw [hr]
    dsimp only
    rw [if_pos (dvals_any_of_fullTruthy hft)]
    exact normAuthored_of_fullTruthy _ hft
  · rw [he] at hr ⊢
    unfold buildName
    rw [hr]
    dsimp only
    rw [if_neg (by decide :
      ¬ ((dvals (default_i18n "")).any pyTruthy = true))]
    exact genName_of_conds hg hosm hc3 ht

theorem buildSuitable_dichotomy (avail : Bool) (tr : String → String → String)
    (prev : List (String × J)) (unv : Bool) (d : String) (st : List J) :
    fullTruthy (buildSuitable avail tr prev unv d st) ∨
    (buildSuitable avail tr prev unv d st = default_i18n "" ∧ unv = false) := by
  unfold buildSuitable
  split
  · split
    · next hany => left; exact normAuthored_fullTruthy _ hany
    · split
      · next h =>
          left
          exact auto_translate_fullTruthy _ _ _ (generate_suitable_text_ne d st)
      · next h => right; exact ⟨rfl, by simpa using h⟩
  · split
    · next h =>
        left
        exact auto_translate_fullTruthy _ _ _ (generate_suitable_text_ne d st)
    · next h => right; exact ⟨rfl, by simpa using h⟩

theorem buildSuitable_stable {avail : Bool} {tr : String → String → String}
    {r prev : List (String × J)} {unv : Bool} {d : String} {st : List J}
    (hr : dget r "suitable" =
      some (J.jobj (buildSuitable avail tr prev unv d st))) :
    buildSuitable avail tr r unv d st = buildSuitable avail tr prev unv d st := by
  rcases buildSuitable_dichotomy avail tr prev unv d st with hft | ⟨he, hunv⟩
  · set m := buildSuitable avail tr prev unv d st with hm
    unfold buildSuitable
    rw [hr]
    dsimp only
    rw [if_pos (dvals_any_of_fullTruthy hft)]
    exact normAuthored_of_fullTruthy _ hft
  · rw [he] at hr ⊢
    unfold buildSuitable
    rw [hr]
    dsimp only
    rw [if_neg (by decide :
      ¬ ((dvals (default_i18n "")).any pyTruthy = true))]
    subst hunv
    simp

theorem buildDesc_dichotomy (avail : Bool) (tr : String → String → String)
    (prev : List (String × J)) (f : GpxFile) (stats : Stats) (unv : Bool)
    (cid : Option String) (d : String) :
    fullTruthy (buildDesc avail tr prev f stats unv cid d) ∨
    (buildDesc avail tr prev f stats unv cid d = default_i18n "" ∧
     (unv && optTruthy cid) = false) := by
  unfold buildDesc
  split
  · split
    · next hany => left; exact normAuthored_fullTruthy _ hany
    · split
      · next h =>
          left
          exact auto_translate_fullTruthy _ _ _ (generate_description_ne _ _ _ _ _)
      · next h => right; exact ⟨rfl, by simpa using h⟩
  · split
    · next h =>
        left
        exact auto_translate_fullTruthy _ _ _ (generate_description_ne _ _ _ _ _)
    · next h => right; exact ⟨rfl, by simpa using h⟩

theorem buildDesc_stable {avail : Bool} {tr : String → String → String}
    {r prev : List (String × J)} {f : GpxFile} {stats : Stats} {unv : Bool}
    {cid : Option String} {d : String}
    (hr : dget r "desc" =
      some (J.jobj (buildDesc avail tr prev f stats unv cid d))) :
    buildDesc avail tr r f stats unv cid d =
      buildDesc avail tr prev f stats unv cid d := by
  rcases buildDesc_dichotomy avail tr prev f stats unv cid d with
    hft | ⟨he, hcond⟩
  · set m := buildDesc avail tr prev f stats unv cid d with hm
    unfold buildDesc
    rw [hr]
    dsimp only
    rw [if_pos (dvals_any_of_fullTruthy hft)]
    exact normAuthored_of_fullTruthy _ hft
  · rw [he] at hr ⊢
    unfold buildDesc
    rw [hr]
    dsimp only
    rw [if_neg (by decide :
      ¬ ((dvals (default_i18n "")).any pyTruthy = true))]
    rw [hcond]
    simp

/-! ### Record stability: rebuilding its own output is the identity -/

theorem dget_build_countryId_of_not {avail : Bool}
    {tr : String → String → String} {hav : GPoint → GPoint → ℚ}
    {prev : List (String × J)} {tid url : String} {slat slon : J}
    {f : GpxFile} {cid : Option String} {unv : Bool}
    (h : optTruthy cid = false) :
    dget (build_trail_object avail tr hav prev tid url slat slon f cid unv)
      "countryId" = dget prev "countryId" := by
  unfold build_trail_object
  dsimp only
  rw [h]
  simp only [Bool.false_eq_true, if_false]
  cases hco : dget prev "countryId" with
  | some v =>
      exact dget_append_some _ (by rfl)
  | none =>
      rw [dget_append_none _ (by rfl)]
      exact dget_filter_none _ hco

theorem mem_dkeys_of_mem {kv : String × J} {B : List (String × J)}
    (h : kv ∈ B) : kv.1 ∈ dkeys B := List.mem_map_of_mem _ h

theorem extras_fixpoint (B prev o : List (String × J))
    (ho : o = B ++ prev.filter
      (fun kv => decide ¬((dkeys B).contains kv.1 = true))) :
    B ++ o.filter (fun kv => decide ¬((dkeys B).contains kv.1 = true)) = o := by
  subst ho
  congr 1
  rw [List.filter_append]
  have h1 : B.filter
      (fun kv => decide ¬((dkeys B).contains kv.1 = true)) = [] := by
    rw [List.filter_eq_nil_iff]
    intro kv hkv
    simpa using mem_dkeys_of_mem hkv
  rw [h1, List.nil_append, List.filter_filter]
  simp only [Bool.and_self]

theorem build_stable (avail : Bool) (tr : String → String → String)
    (hav : GPoint → GPoint → ℚ) (prev : List (String × J))
    (tid url : String) (slat slon : J) (f : GpxFile) (cid : Option String)
    (unv : Bool) :
    build_trail_object avail tr hav
      (build_trail_object avail tr hav prev tid url slat slon f cid unv)
      tid url slat slon f cid unv =
    build_trail_object avail tr hav prev tid url slat slon f cid unv := by
  have hcity := dget_build_cityId avail tr hav prev tid url slat slon f cid unv
  have hsty := dget_build_styles avail tr hav prev tid url slat slon f cid unv
  have hnm := dget_build_name avail tr hav prev tid url slat slon f cid unv
  have hsuit := dget_build_suitable avail tr hav prev tid url slat slon f cid unv
  have hdiff := dget_build_difficulty avail tr hav prev tid url slat slon f cid
    unv
  have hdesc := dget_build_desc avail tr hav prev tid url slat slon f cid unv
  have hdmem := buildDifficulty_mem prev tid (statsFor hav f) unv
  set o := build_trail_object avail tr hav prev tid url slat slon f cid unv
    with ho
  clear_value o
  unfold build_trail_object
  dsimp only
  rw [hcity]
  simp only [Option.getD_some]
  rw [buildDifficulty_of_prev hdiff hdmem]
  rw [buildStyles_stable hsty]
  rw [buildName_stable hnm]
  rw [buildSuitable_stable hsuit]
  rw [buildDesc_stable hdesc]
  by_cases hct : optTruthy cid = true
  · simp only [hct, if_true]
    refine extras_fixpoint _ prev o ?_
    refine ho.trans ?_
    unfold build_trail_object
    dsimp only
    rw [hct]
    simp only [if_true]
  · have hcf : optTruthy cid = false := by simpa using hct
    simp only [hcf, Bool.false_eq_true, if_false]
    have hcid2 : dget o "countryId" = dget prev "countryId" := by
      rw [ho]
      exact dget_build_countryId_of_not hcf
    rw [hcid2]
    cases hco : dget prev "countryId" with
    | some v =>
        dsimp only
        refine extras_fixpoint _ prev o ?_
        refine ho.trans ?_
        unfold build_trail_object
        dsimp only
        rw [hcf]
        simp only [Bool.false_eq_true, if_false]
        rw [hco]
    | none =>
        dsimp only
        refine extras_fixpoint _ prev o ?_
        refine ho.trans ?_
        unfold build_trail_object
        dsimp only
        rw [hcf]
        simp only [Bool.false_eq_true, if_false]
        rw [hco]

/-! ### List and lookup utilities for the reconciliation fixpoint -/

theorem map_eq_self_of {α : Type} {f : α → α} {l : List α}
    (h : ∀ x ∈ l, f x = x) : l.map f = l := by
  induction l with
  | nil => rfl
  | cons x rest ih =>
      simp only [List.map_cons]
      rw [h x (by simp), ih fun y hy => h y (by simp [hy])]

theorem mem_insStr {a s : String} {l : List String} :
    a ∈ insStr s l ↔ a = s ∨ a ∈ l := by
  induction l with
  | nil => simp [insStr]
  | cons x rest ih =>
      unfold insStr
      split
      · simp
      · simp only [List.mem_cons, ih]
        tauto

theorem mem_sortStrings {a : String} {l : List String} :
    a ∈ sortStrings l ↔ a ∈ l := by
  induction l with
  | nil => simp [sortStrings]
  | cons x rest ih =>
      unfold sortStrings
      rw [mem_insStr, ih]
      simp

theorem mem_dedupStr {a : String} {l : List String} :
    a ∈ dedupStr l ↔ a ∈ l := by
  induction l with
  | nil => simp [dedupStr]
  | cons x rest ih =>
      unfold dedupStr
      simp only [List.mem_cons, List.mem_filter, ih]
      constructor
      · rintro (rfl | ⟨h, -⟩)
        · exact Or.inl rfl
        · exact Or.inr h
      · rintro (rfl | h)
        · exact Or.inl rfl
        · by_cases hax : a = x
          · exact Or.inl hax
          · exact Or.inr ⟨h, by simpa using hax⟩

theorem fileKey_mem {files : List (GpxFile × Option String)} {s : String}
    {pc : GpxFile × Option String} (h : fileKey files s = some pc) :
    pc ∈ files ∧ pc.1.stem = s := by
  induction files with
  | nil => simp [fileKey] at h
  | cons fc rest ih =>
      obtain ⟨f, c⟩ := fc
      unfold fileKey at h
      rcases hr : fileKey rest s with _ | r
      · rw [hr] at h
        dsimp only at h
        split at h
        · injection h with h
          subst h
          exact ⟨by simp, by next hst => exact hst⟩
        · exact Option.noConfusion h
      · rw [hr] at h
        dsimp only at h
        injection h with h
        subst h
        obtain ⟨hm, hst⟩ := ih hr
        exact ⟨by simp [hm], hst⟩

theorem fileKey_isSome_of_mem {files : List (GpxFile × Option String)}
    {s : String} (h : s ∈ files.map fun fc => fc.1.stem) :
    (fileKey files s).isSome := by
  induction files with
  | nil => simp at h
  | cons fc rest ih =>
      obtain ⟨f, c⟩ := fc
      simp only [List.map_cons, List.mem_cons] at h
      unfold fileKey
      rcases hr : fileKey rest s with _ | r
      · dsimp only
        rcases h with h | h
        · simp [h.symm]
        · have := ih h
          rw [hr] at this
          simp at this
      · simp

theorem idxLookup_map_none {v : String → List (String × J)} {s : String}
    {l : List String} (h : s ∉ l) :
    idxLookup (l.map fun x => (J.jstr x, v x)) (J.jstr s) = none := by
  induction l with
  | nil => rfl
  | cons x rest ih =>
      simp only [List.mem_cons, not_or] at h
      simp only [List.map_cons]
      unfold idxLookup
      rw [ih h.2]
      rw [if_neg fun hxs => h.1 (J.jstr.inj hxs).symm]

theorem idxLookup_map_self {v : String → List (String × J)} {s : String}
    {l : List String} (h : s ∈ l) :
    idxLookup (l.map fun x => (J.jstr x, v x)) (J.jstr s) = some (v s) := by
  induction l with
  | nil => simp at h
  | cons x rest ih =>
      simp only [List.map_cons]
      unfold idxLookup
      by_cases hs : s ∈ rest
      · rw [ih hs]
      · rw [idxLookup_map_none hs]
        have hx : x = s := by
          rcases List.mem_cons.mp h with h' | h'
          · exact h'.symm
          · exact absurd h' hs
        simp [hx]

theorem idxLookup_isSome_mem {idx : List (J × List (String × J))} {key : J}
    (h : (idxLookup idx key).isSome) : key ∈ idx.map (·.1) := by
  induction idx with
  | nil => simp [idxLookup] at h
  | cons kv rest ih =>
      obtain ⟨k, v⟩ := kv
      unfold idxLookup at h
      rcases hr : idxLookup rest key with _ | r
      · rw [hr] at h
        dsimp only at h
        split at h
        · next hk => simp [hk]
        · exact absurd h (by simp)
      · rw [hr] at h
        have := ih (by simp [hr])
        simp [this]

/-! ### Reconciliation building blocks -/

theorem citySafety_build (avail : Bool) (tr : String → String → String)
    (hav : GPoint → GPoint → ℚ) (prev : List (String × J)) (tid url : String)
    (slat slon : J) (f : GpxFile) (cid : Option String) (unv : Bool) :
    citySafety
      (build_trail_object avail tr hav prev tid url slat slon f cid unv) =
    build_trail_object avail tr hav prev tid url slat slon f cid unv := by
  unfold citySafety
  rw [dget_build_cityId]
  simp

theorem citySafety_buildFromFile (avail : Bool)
    (tr : String → String → String) (hav : GPoint → GPoint → ℚ)
    (gfn rb : String) (unv : Bool) (prev : List (String × J)) (s : String)
    (pc : GpxFile × Option String) :
    citySafety (buildFromFile avail tr hav gfn rb unv prev s pc) =
    buildFromFile avail tr hav gfn rb unv prev s pc := by
  unfold buildFromFile
  dsimp only
  apply citySafety_build

theorem dget_buildFromFile_id (avail : Bool) (tr : String → String → String)
    (hav : GPoint → GPoint → ℚ) (gfn rb : String) (unv : Bool)
    (prev : List (String × J)) (s : String) (pc : GpxFile × Option String) :
    dget (buildFromFile avail tr hav gfn rb unv prev s pc) "id" =
      some (J.jstr s) := by
  unfold buildFromFile
  dsimp only
  apply dget_build_id

theorem buildFromFile_stable (avail : Bool) (tr : String → String → String)
    (hav : GPoint → GPoint → ℚ) (gfn rb : String) (unv : Bool)
    (prev : List (String × J)) (s : String) (pc : GpxFile × Option String) :
    buildFromFile avail tr hav gfn rb unv
      (buildFromFile avail tr hav gfn rb unv prev s pc) s pc =
    buildFromFile avail tr hav gfn rb unv prev s pc := by
  unfold buildFromFile
  dsimp only
  cases hh : pc.1.points.head? with
  | some pt =>
      dsimp only
      apply build_stable
  | none =>
      dsimp only
      rw [dget_build_startLat, dget_build_startLon]
      simp only [Option.getD_some]
      apply build_stable

theorem mem_stemsOfOrder {files : List (GpxFile × Option String)}
    {order : List J} {s : String} (h : s ∈ stemsOfOrder files order) :
    (fileKey files s).isSome := by
  unfold stemsOfOrder at h
  rw [List.mem_filterMap] at h
  obtain ⟨tid, hmem, htid⟩ := h
  cases tid with
  | null => exact Option.noConfusion htid
  | jbool b => exact Option.noConfusion htid
  | jnum q => exact Option.noConfusion htid
  | jarr l => exact Option.noConfusion htid
  | jobj kvs => exact Option.noConfusion htid
  | jstr s' =>
      dsimp only at htid
      split at htid
      · next hk =>
          injection htid with htid
          subst htid
          exact hk
      · exact Option.noConfusion htid

theorem filterMap_guard {α β : Type} (l : List α) (c : α → Bool)
    (v : α → β) :
    (l.filterMap fun a => if c a then none else some (v a)) =
      (l.filter fun a => !(c a)).map v := by
  induction l with
  | nil => rfl
  | cons x rest ih =>
      simp only [List.filterMap_cons, List.filter_cons]
      by_cases hc : c x = true
      · simp [hc, ih]
      · simp only [Bool.not_eq_true] at hc
        simp [hc, ih]

theorem mkTrails_eq (avail : Bool) (tr : String → String → String)
    (hav : GPoint → GPoint → ℚ) (files : List (GpxFile × Option String))
    (gfn rb : String) (unv : Bool) (ts : List J) :
    mkTrails avail tr hav files gfn rb unv ts =
      (stemsOfOrder files ((idxOf ts).map (·.1)) ++
        (sortStrings (dedupStr (files.map fun fc => fc.1.stem))).filter
          (fun s => !(idxLookup (idxOf ts) (J.jstr s)).isSome)).map
        (recFromIdx avail tr hav files gfn rb unv (idxOf ts)) := by
  unfold mkTrails
  dsimp only
  rw [List.map_append]
  have hA : ((idxOf ts).map (·.1)).filterMap (fun tid =>
      match tid with
      | J.jstr s =>
          match fileKey files s with
          | some pc =>
              some (buildFromFile avail tr hav gfn rb unv
                ((idxLookup (idxOf ts) (J.jstr s)).getD []) s pc)
          | none => none
      | _ => none) =
      (stemsOfOrder files ((idxOf ts).map (·.1))).map
        (recFromIdx avail tr hav files gfn rb unv (idxOf ts)) := by
    unfold stemsOfOrder
    rw [List.map_filterMap]
    apply List.filterMap_congr
    intro tid _
    cases tid with
    | null => rfl
    | jbool b => rfl
    | jnum q => rfl
    | jarr l => rfl
    | jobj kvs => rfl
    | jstr s =>
        dsimp only
        cases hfk : fileKey files s with
        | some pc => simp [recFromIdx, hfk]
        | none => simp [recFromIdx, hfk]
  have hB : (sortStrings (dedupStr (files.map fun fc => fc.1.stem))).filterMap
      (fun s =>
        if (idxLookup (idxOf ts) (J.jstr s)).isSome then none
        else
          match fileKey files s with
          | some pc =>
              some (buildFromFile avail tr hav gfn rb unv [] s pc)
          | none => none) =
      ((sortStrings (dedupStr (files.map fun fc => fc.1.stem))).filter
        (fun s => !(idxLookup (idxOf ts) (J.jstr s)).isSome)).map
        (recFromIdx avail tr hav files gfn rb unv (idxOf ts)) := by
    rw [← filterMap_guard]
    apply List.filterMap_congr
    intro s hs
    have hmem : s ∈ files.map fun fc => fc.1.stem := by
      rw [mem_sortStrings, mem_dedupStr] at hs
      exact hs
    have hfk := fileKey_isSome_of_mem hmem
    by_cases hlk : (idxLookup (idxOf ts) (J.jstr s)).isSome
    · simp [hlk]
    · rcases hfko : fileKey files s with _ | pc
      · rw [hfko] at hfk
        simp at hfk
      · have hlkn : idxLookup (idxOf ts) (J.jstr s) = none :=
          Option.not_isSome_iff_eq_none.mp hlk
        simp [hlk, hfko, recFromIdx, hlkn]
  rw [hA, hB]
  rw [List.map_append]
  congr 1
  · apply map_eq_self_of
    intro t ht
    rw [List.mem_map] at ht
    obtain ⟨s, hs, rfl⟩ := ht
    have hfk := mem_stemsOfOrder hs
    rcases hfko : fileKey files s with _ | pc
    · rw [hfko] at hfk
      simp at hfk
    · unfold recFromIdx
      rw [hfko]
      apply citySafety_buildFromFile
  · apply map_eq_self_of
    intro t ht
    rw [List.mem_map] at ht
    obtain ⟨s, hs, rfl⟩ := ht
    rw [List.mem_filter] at hs
    have hmem : s ∈ files.map fun fc => fc.1.stem := by
      have := hs.1
      rw [mem_sortStrings, mem_dedupStr] at this
      exact this
    have hfk := fileKey_isSome_of_mem hmem
    rcases hfko : fileKey files s with _ | pc
    · rw [hfko] at hfk
      simp at hfk
    · unfold recFromIdx
      rw [hfko]
      apply citySafety_buildFromFile

theorem filterMap_eq_map_of {α β : Type} {p : α → Option β} {f : α → β}
    {l : List α} (h : ∀ a ∈ l, p a = some (f a)) : l.filterMap p = l.map f := by
  induction l with
  | nil => rfl
  | cons x rest ih =>
      rw [List.filterMap_cons, h x (by simp), List.map_cons,
        ih fun a ha => h a (by simp [ha])]

theorem dget_recFromIdx_id {avail : Bool} {tr : String → String → String}
    {hav : GPoint → GPoint → ℚ} {files : List (GpxFile × Option String)}
    {gfn rb : String} {unv : Bool} {idx : List (J × List (String × J))}
    {s : String} (hfk : (fileKey files s).isSome) :
    dget (recFromIdx avail tr hav files gfn rb unv idx s) "id" =
      some (J.jstr s) := by
  unfold recFromIdx
  rcases hfko : fileKey files s with _ | pc
  · rw [hfko] at hfk
    simp at hfk
  · apply dget_buildFromFile_id

theorem stem_ne_of_fileKey {files : List (GpxFile × Option String)}
    {s : String} (hstem : ∀ fc ∈ files, fc.1.stem ≠ "")
    (hfk : (fileKey files s).isSome) : s ≠ "" := by
  rcases hfko : fileKey files s with _ | pc
  · rw [hfko] at hfk
    simp at hfk
  · obtain ⟨hm, hst⟩ := fileKey_mem hfko
    rw [← hst]
    exact hstem pc hm

theorem mem_stemsOfOrder_intro {files : List (GpxFile × Option String)}
    {order : List J} {s : String} (hmem : J.jstr s ∈ order)
    (hfk : (fileKey files s).isSome) : s ∈ stemsOfOrder files order := by
  unfold stemsOfOrder
  rw [List.mem_filterMap]
  exact ⟨J.jstr s, hmem, by simp [hfk]⟩

theorem mkTrails_fixpoint (avail : Bool) (tr : String → String → String)
    (hav : GPoint → GPoint → ℚ) (files : List (GpxFile × Option String))
    (gfn rb : String) (unv : Bool)
    (hstem : ∀ fc ∈ files, fc.1.stem ≠ "") (ts : List J) :
    mkTrails avail tr hav files gfn rb unv
      ((mkTrails avail tr hav files gfn rb unv ts).map J.jobj) =
    mkTrails avail tr hav files gfn rb unv ts := by
  have hts := mkTrails_eq avail tr hav files gfn rb unv ts
  -- the stem list that run 1 maps over
  set sL := stemsOfOrder files ((idxOf ts).map (·.1)) ++
    (sortStrings (dedupStr (files.map fun fc => fc.1.stem))).filter
      (fun s => !(idxLookup (idxOf ts) (J.jstr s)).isSome) with hsL
  have hSome : ∀ s ∈ sL, (fileKey files s).isSome := by
    intro s hs
    rcases List.mem_append.mp hs with h | h
    · exact mem_stemsOfOrder h
    · rw [List.mem_filter] at h
      have : s ∈ files.map fun fc => fc.1.stem := by
        have := h.1
        rwa [mem_sortStrings, mem_dedupStr] at this
      exact fileKey_isSome_of_mem this
  have hne : ∀ s ∈ sL, s ≠ "" :=
    fun s hs => stem_ne_of_fileKey hstem (hSome s hs)
  -- run 2's index is the run 1 records keyed by their stems
  have hidx2 : idxOf ((mkTrails avail tr hav files gfn rb unv ts).map J.jobj) =
      sL.map fun s =>
        (J.jstr s, recFromIdx avail tr hav files gfn rb unv (idxOf ts) s) := by
    rw [hts]
    unfold idxOf
    rw [List.filterMap_map, List.filterMap_map]
    apply filterMap_eq_map_of
    intro s hs
    dsimp only [Function.comp]
    rw [dget_recFromIdx_id (hSome s hs)]
    have htr : pyTruthy (J.jstr s) = true := by
      simp [pyTruthy, hne s hs]
    simp [htr]
  have hcover : ∀ s ∈ sortStrings (dedupStr (files.map fun fc => fc.1.stem)),
      s ∈ sL := by
    intro s hs
    have hmem : s ∈ files.map fun fc => fc.1.stem := by
      rwa [mem_sortStrings, mem_dedupStr] at hs
    by_cases hlk : (idxLookup (idxOf ts) (J.jstr s)).isSome
    · rw [hsL]
      apply List.mem_append_left
      exact mem_stemsOfOrder_intro (idxLookup_isSome_mem hlk)
        (fileKey_isSome_of_mem hmem)
    · rw [hsL]
      apply List.mem_append_right
      rw [List.mem_filter]
      exact ⟨hs, by simp [hlk]⟩
  rw [mkTrails_eq avail tr hav files gfn rb unv
    ((mkTrails avail tr hav files gfn rb unv ts).map J.jobj)]
  rw [hidx2]
  -- run 2's old-order stems are exactly sL, its new-id filter is empty
  have hA2 : stemsOfOrder files
      ((sL.map fun s =>
        (J.jstr s, recFromIdx avail tr hav files gfn rb unv (idxOf ts) s)).map
        (·.1)) = sL := by
    rw [List.map_map]
    unfold stemsOfOrder
    rw [List.filterMap_map]
    trans (sL.map id)
    · apply filterMap_eq_map_of
      intro s hs
      dsimp only [Function.comp]
      simp [hSome s hs]
    · exact List.map_id sL
  have hB2 : (sortStrings (dedupStr (files.map fun fc => fc.1.stem))).filter
      (fun s => !(idxLookup
        (sL.map fun x =>
          (J.jstr x, recFromIdx avail tr hav files gfn rb unv (idxOf ts) x))
        (J.jstr s)).isSome) = [] := by
    rw [List.filter_eq_nil_iff]
    intro s hs
    rw [idxLookup_map_self (hcover s hs)]
    simp
  rw [hA2, hB2, List.append_nil]
  rw [hts]
  apply List.map_congr_left
  intro s hs
  unfold recFromIdx
  rcases hfko : fileKey files s with _ | pc
  · rfl
  · rw [idxLookup_map_self hs]
    simp only [Option.getD_some]
    rw [hfko]
    apply buildFromFile_stable

/-! ### Upsert output shape -/

theorem upsert_eq_none_case (avail : Bool) (tr : String → String → String)
    (hav : GPoint → GPoint → ℚ) (today : String)
    (files : List (GpxFile × Option String)) (gfn rb : String) (dv : Int)
    (unv : Bool) {root : Option J}
    (hwf : (match root with
      | some (J.jobj kvs) =>
          match dget kvs "trails" with
          | some (J.jarr ts) => some (kvs, ts)
          | _ => none
      | _ => (none : Option (List (String × J) × List J))) = none) :
    upsert_file avail tr hav today files gfn rb dv unv root =
      J.jobj [("version", J.jnum (mkRat dv 1)), ("updatedAt", J.jstr today),
        ("trails", J.jarr
          ((mkTrails avail tr hav files gfn rb unv []).map J.jobj))] := by
  unfold upsert_file
  dsimp only
  rw [hwf]

theorem upsert_eq_some_case (avail : Bool) (tr : String → String → String)
    (hav : GPoint → GPoint → ℚ) (today : String)
    (files : List (GpxFile × Option String)) (gfn rb : String) (dv : Int)
    (unv : Bool) {root : Option J} {kvs : List (String × J)} {ts : List J}
    (hwf : (match root with
      | some (J.jobj kvs) =>
          match dget kvs "trails" with
          | some (J.jarr ts) => some (kvs, ts)
          | _ => none
      | _ => (none : Option (List (String × J) × List J))) = some (kvs, ts)) :
    upsert_file avail tr hav today files gfn rb dv unv root =
      (if roots_equal (J.jobj (dset kvs "updatedAt" (J.jstr "X")))
          (J.jobj [("version", (dget kvs "version").getD (J.jnum (mkRat dv 1))),
            ("updatedAt", J.jstr "X"),
            ("trails", J.jarr
              ((mkTrails avail tr hav files gfn rb unv ts).map J.jobj))])
      then
        J.jobj [("version", (dget kvs "version").getD (J.jnum (mkRat dv 1))),
          ("updatedAt",
            (dget kvs "updatedAt").getD
              ((dget kvs "updatedAt").getD (J.jstr today))),
          ("trails", J.jarr
            ((mkTrails avail tr hav files gfn rb unv ts).map J.jobj))]
      else
        J.jobj [("version", (dget kvs "version").getD (J.jnum (mkRat dv 1))),
          ("updatedAt", J.jstr today),
          ("trails", J.jarr
            ((mkTrails avail tr hav files gfn rb unv ts).map J.jobj))]) := by
  unfold upsert_file
  dsimp only
  rw [hwf]
  dsimp only
  simp only [dset, String.reduceEq, reduceIte]


/-- Feeding `upsert_file` a root of the exact shape it writes — whose trails
are an output of `mkTrails` on the same files — reproduces that root,
including `updatedAt`. -/
theorem upsert_roundtrip (avail : Bool) (tr : String → String → String)
    (hav : GPoint → GPoint → ℚ) (today : String)
    (files : List (GpxFile × Option String)) (gfn rb : String) (dv : Int)
    (unv : Bool) (hstem : ∀ fc ∈ files, fc.1.stem ≠ "")
    (v₁ u₁ : J) (ts₀ : List J) :
    upsert_file avail tr hav today files gfn rb dv unv
      (some (J.jobj [("version", v₁), ("updatedAt", u₁),
        ("trails", J.jarr
          ((mkTrails avail tr hav files gfn rb unv ts₀).map J.jobj))])) =
    J.jobj [("version", v₁), ("updatedAt", u₁),
      ("trails", J.jarr
        ((mkTrails avail tr hav files gfn rb unv ts₀).map J.jobj))] := by
  have hwf : (match (some (J.jobj [("version", v₁), ("updatedAt", u₁),
        ("trails", J.jarr
          ((mkTrails avail tr hav files gfn rb unv ts₀).map J.jobj))]) :
            Option J) with
      | some (J.jobj kvs) =>
          match dget kvs "trails" with
          | some (J.jarr ts) => some (kvs, ts)
          | _ => none
      | _ => (none : Option (List (String × J) × List J))) =
      some ([("version", v₁), ("updatedAt", u₁),
        ("trails", J.jarr
          ((mkTrails avail tr hav files gfn rb unv ts₀).map J.jobj))],
        (mkTrails avail tr hav files gfn rb unv ts₀).map J.jobj) := rfl
  rw [upsert_eq_some_case avail tr hav today files gfn rb dv unv hwf]
  rw [mkTrails_fixpoint avail tr hav files gfn rb unv hstem ts₀]
  simp only [dget, String.reduceEq, reduceIte, Option.getD_some]
  have hds : ∀ t : J, dset [("version", v₁), ("updatedAt", u₁),
      ("trails", t)] "updatedAt" (J.jstr "X") =
      [("version", v₁), ("updatedAt", J.jstr "X"), ("trails", t)] :=
    fun _ => rfl
  rw [hds]
  rw [if_pos (roots_equal_refl _)]


/-! ## The claims -/

/-- C1: with translation unavailable, running `upsert_file` twice in
succession on an unchanged file set — the second run on any later date,
reading the first run's output — returns the first run's output unchanged,
including `updatedAt` (file stems are nonempty, as `Path.stem` of a real
`.gpx` file always is). -/
theorem C1_upsert_idempotent (tr : String → String → String)
    (hav : GPoint → GPoint → ℚ) (today₁ today₂ : String)
    (files : List (GpxFile × Option String)) (gfn rb : String) (dv : Int)
    (unv : Bool) (root : Option J)
    (hstem : ∀ fc ∈ files, fc.1.stem ≠ "") :
    upsert_file false tr hav today₂ files gfn rb dv unv
      (some (upsert_file false tr hav today₁ files gfn rb dv unv root)) =
    upsert_file false tr hav today₁ files gfn rb dv unv root := by
  rcases hwf : (match root with
      | some (J.jobj kvs) =>
          match dget kvs "trails" with
          | some (J.jarr ts) => some (kvs, ts)
          | _ => none
      | _ => (none : Option (List (String × J) × List J))) with _ | ⟨kvs, ts⟩
  · rw [upsert_eq_none_case false tr hav today₁ files gfn rb dv unv hwf]
    exact upsert_roundtrip false tr hav today₂ files gfn rb dv unv hstem
      (J.jnum (mkRat dv 1)) (J.jstr today₁) []
  · rw [upsert_eq_some_case false tr hav today₁ files gfn rb dv unv hwf]
    split
    · exact upsert_roundtrip false tr hav today₂ files gfn rb dv unv hstem
        ((dget kvs "version").getD (J.jnum (mkRat dv 1)))
        ((dget kvs "updatedAt").getD
          ((dget kvs "updatedAt").getD (J.jstr today₁))) ts
    · exact upsert_roundtrip false tr hav today₂ files gfn rb dv unv hstem
        ((dget kvs "version").getD (J.jnum (mkRat dv 1)))
        (J.jstr today₁) ts

/-- Witness for C1 at a concrete one-file input: the hypothesis holds and
the second run reproduces the first run's output. -/
theorem C1_upsert_idempotent_witness :
    (∀ fc ∈ [((⟨"a", "a.gpx", [], none, none, none, []⟩ : GpxFile),
        (none : Option String))], fc.1.stem ≠ "") ∧
    upsert_file false (fun _ s => s) (fun _ _ => 0) "2025-01-02"
      [((⟨"a", "a.gpx", [], none, none, none, []⟩ : GpxFile),
        (none : Option String))] "gpx" "https://example.org" 1 false
      (some (upsert_file false (fun _ s => s) (fun _ _ => 0) "2025-01-01"
        [((⟨"a", "a.gpx", [], none, none, none, []⟩ : GpxFile),
          (none : Option String))] "gpx" "https://example.org" 1 false
        none)) =
    upsert_file false (fun _ s => s) (fun _ _ => 0) "2025-01-01"
      [((⟨"a", "a.gpx", [], none, none, none, []⟩ : GpxFile),
        (none : Option String))] "gpx" "https://example.org" 1 false none :=
  ⟨by decide, C1_upsert_idempotent (fun _ s => s) (fun _ _ => 0)
    "2025-01-01" "2025-01-02"
    [((⟨"a", "a.gpx", [], none, none, none, []⟩ : GpxFile),
      (none : Option String))] "gpx" "https://example.org" 1 false none
    (by decide)⟩


/-- C2 counterexample: in a verified run (`is_unverified = false`) of the
merge engine on file `a` — whose elevation data exists and whose average
gradient is 1 % — with no prior difficulty, the claim's bucketing predicts
`green`, but the engine hashes the id and emits `blue`. -/
theorem C2_counterexample :
    (statsFor (fun _ _ => 100)
        ⟨"a", "a.gpx", [⟨0, 0, some 0⟩, ⟨0, 0, some 1⟩],
          none, none, none, []⟩).has_elevation = true ∧
    (statsFor (fun _ _ => 100)
        ⟨"a", "a.gpx", [⟨0, 0, some 0⟩, ⟨0, 0, some 1⟩],
          none, none, none, []⟩).avg_gradient < 5 ∧
    dget ([] : List (String × J)) "difficulty" = none ∧
    dget (build_trail_object false (fun _ s => s) (fun _ _ => 100) []
        "a" "url" J.null J.null
        ⟨"a", "a.gpx", [⟨0, 0, some 0⟩, ⟨0, 0, some 1⟩],
          none, none, none, []⟩ none false)
      "difficulty" = some (J.jstr "blue") ∧
    ("blue" : String) ≠ "green" := by
  refine ⟨by decide, by decide, by decide, by decide, by decide⟩

/-- C2 (amended): the difficulty of every merged record is: the prior
difficulty, stripped of surrounding whitespace, when that stripped value
lies in the fixed enum; otherwise the gradient buckets, but only in
unverified mode and only when elevation data exists; otherwise the
id-hash pick — for any prior record, file, and mode. -/
theorem C2_difficulty_rule (avail : Bool) (tr : String → String → String)
    (hav : GPoint → GPoint → ℚ) (prev : List (String × J))
    (tid url : String) (slat slon : J) (f : GpxFile) (cid : Option String)
    (unv : Bool) :
    dget (build_trail_object avail tr hav prev tid url slat slon f cid unv)
      "difficulty" =
    some (J.jstr
      (match (dget prev "difficulty").getD (J.jstr "") with
       | J.jstr s =>
           if pyStrip s ∈ DIFFICULTIES then pyStrip s
           else if unv && (statsFor hav f).has_elevation then
             determine_difficulty_from_elevation (statsFor hav f) tid
           else stable_random_difficulty tid
       | _ =>
           if unv && (statsFor hav f).has_elevation then
             determine_difficulty_from_elevation (statsFor hav f) tid
           else stable_random_difficulty tid)) := by
  rw [dget_build_difficulty]
  unfold buildDifficulty
  rcases (dget prev "difficulty").getD (J.jstr "") <;> rfl


/-- C3 counterexample: a well-formed catalog stamped with today's date and
an empty trails list, merged with one new file on that same date: the
trails content changes (masked comparison fails), yet the output
`updatedAt` equals the input `updatedAt` — refuting the claimed "only if"
direction. -/
theorem C3_counterexample :
    wellFormedRoot (J.jobj [("version", J.jnum 1),
      ("updatedAt", J.jstr "2025-01-02"), ("trails", J.jarr [])]) = true ∧
    roots_equal
      (J.jarr (trailsOf (upsert_file false (fun _ s => s) (fun _ _ => 0)
        "2025-01-02"
        [((⟨"a", "a.gpx", [], none, none, none, []⟩ : GpxFile),
          (none : Option String))] "gpx" "https://example.org" 1 false
        (some (J.jobj [("version", J.jnum 1),
          ("updatedAt", J.jstr "2025-01-02"), ("trails", J.jarr [])])))))
      (J.jarr (trailsOf (J.jobj [("version", J.jnum 1),
        ("updatedAt", J.jstr "2025-01-02"),
        ("trails", J.jarr [])]))) = false ∧
    updatedAtOf (upsert_file false (fun _ s => s) (fun _ _ => 0)
        "2025-01-02"
        [((⟨"a", "a.gpx", [], none, none, none, []⟩ : GpxFile),
          (none : Option String))] "gpx" "https://example.org" 1 false
        (some (J.jobj [("version", J.jnum 1),
          ("updatedAt", J.jstr "2025-01-02"), ("trails", J.jarr [])]))) =
      updatedAtOf (J.jobj [("version", J.jnum 1),
        ("updatedAt", J.jstr "2025-01-02"), ("trails", J.jarr [])]) := by
  refine ⟨by decide, by decide, by decide⟩

/-- C3 (amended): for a well-formed existing catalog, if the rebuilt root —
version kept, trails reconciled, `updatedAt` masked — is structurally equal
to the masked old root, the output `updatedAt` equals the input `updatedAt`
(defaulting to today when the input lacks the key); if they differ, the
output `updatedAt` is today's date, which can coincide with the input
`updatedAt` when the input was already stamped today. -/
theorem C3_updatedAt_rule (avail : Bool) (tr : String → String → String)
    (hav : GPoint → GPoint → ℚ) (today : String)
    (files : List (GpxFile × Option String)) (gfn rb : String) (dv : Int)
    (unv : Bool) (kvs : List (String × J)) (ts : List J)
    (htr : dget kvs "trails" = some (J.jarr ts)) :
    (roots_equal (J.jobj (dset kvs "updatedAt" (J.jstr "X")))
        (J.jobj [("version", (dget kvs "version").getD (J.jnum (mkRat dv 1))),
          ("updatedAt", J.jstr "X"),
          ("trails", J.jarr
            ((mkTrails avail tr hav files gfn rb unv ts).map J.jobj))]) =
        true →
      updatedAtOf (upsert_file avail tr hav today files gfn rb dv unv
          (some (J.jobj kvs))) =
        some ((dget kvs "updatedAt").getD (J.jstr today))) ∧
    (roots_equal (J.jobj (dset kvs "updatedAt" (J.jstr "X")))
        (J.jobj [("version", (dget kvs "version").getD (J.jnum (mkRat dv 1))),
          ("updatedAt", J.jstr "X"),
          ("trails", J.jarr
            ((mkTrails avail tr hav files gfn rb unv ts).map J.jobj))]) =
        false →
      updatedAtOf (upsert_file avail tr hav today files gfn rb dv unv
          (some (J.jobj kvs))) = some (J.jstr today)) := by
  have hwf : (match (some (J.jobj kvs) : Option J) with
      | some (J.jobj kvs) =>
          match dget kvs "trails" with
          | some (J.jarr ts) => some (kvs, ts)
          | _ => none
      | _ => (none : Option (List (String × J) × List J))) =
      some (kvs, ts) := by
    dsimp only
    rw [htr]
  rw [upsert_eq_some_case avail tr hav today files gfn rb dv unv hwf]
  constructor
  · intro h
    rw [if_pos h]
    show some ((dget kvs "updatedAt").getD
      ((dget kvs "updatedAt").getD (J.jstr today))) = _
    rcases dget kvs "updatedAt" <;> rfl
  · intro h
    rw [if_neg (by rw [h]; decide)]
    rfl

/-- Witness for C3 at a concrete input: an empty catalog merged with no
files keeps its (absent) `updatedAt` defaulted to today in the equal
branch and stamps today in the unequal branch. -/
theorem C3_updatedAt_rule_witness :
    dget [("trails", J.jarr [])] "trails" = some (J.jarr []) ∧
    ((roots_equal (J.jobj (dset [("trails", J.jarr [])] "updatedAt"
        (J.jstr "X")))
        (J.jobj [("version",
          (dget [("trails", J.jarr [])] "version").getD
            (J.jnum (mkRat 1 1))),
          ("updatedAt", J.jstr "X"),
          ("trails", J.jarr
            ((mkTrails false (fun _ s => s) (fun _ _ => 0) [] "gpx"
              "https://example.org" false []).map J.jobj))]) = true →
      updatedAtOf (upsert_file false (fun _ s => s) (fun _ _ => 0)
          "2025-01-01" [] "gpx" "https://example.org" 1 false
          (some (J.jobj [("trails", J.jarr [])]))) =
        some ((dget [("trails", J.jarr [])] "updatedAt").getD
          (J.jstr "2025-01-01"))) ∧
    (roots_equal (J.jobj (dset [("trails", J.jarr [])] "updatedAt"
        (J.jstr "X")))
        (J.jobj [("version",
          (dget [("trails", J.jarr [])] "version").getD
            (J.jnum (mkRat 1 1))),
          ("updatedAt", J.jstr "X"),
          ("trails", J.jarr
            ((mkTrails false (fun _ s => s) (fun _ _ => 0) [] "gpx"
              "https://example.org" false []).map J.jobj))]) = false →
      updatedAtOf (upsert_file false (fun _ s => s) (fun _ _ => 0)
          "2025-01-01" [] "gpx" "https://example.org" 1 false
          (some (J.jobj [("trails", J.jarr [])]))) =
        some (J.jstr "2025-01-01"))) :=
  ⟨by decide, C3_updatedAt_rule false (fun _ s => s) (fun _ _ => 0)
    "2025-01-01" [] "gpx" "https://example.org" 1 false
    [("trails", J.jarr [])] [] (by decide)⟩


/-- C4 counterexample: a bare-array catalog holding a record for id `a`
with `cityId` `custom` is NOT treated as prior records — merging file `a`
over it gives exactly the result of merging over no catalog at all, and
the output record's `cityId` is the default `chisinau`, not the prior
`custom`. -/
theorem C4_counterexample :
    upsert_file false (fun _ s => s) (fun _ _ => 0) "2025-01-01"
      [((⟨"a", "a.gpx", [], none, none, none, []⟩ : GpxFile),
        (none : Option String))] "gpx" "https://example.org" 1 false
      (some (J.jarr [J.jobj [("id", J.jstr "a"),
        ("cityId", J.jstr "custom")]])) =
    upsert_file false (fun _ s => s) (fun _ _ => 0) "2025-01-01"
      [((⟨"a", "a.gpx", [], none, none, none, []⟩ : GpxFile),
        (none : Option String))] "gpx" "https://example.org" 1 false
      none ∧
    (trailsOf (upsert_file false (fun _ s => s) (fun _ _ => 0) "2025-01-01"
      [((⟨"a", "a.gpx", [], none, none, none, []⟩ : GpxFile),
        (none : Option String))] "gpx" "https://example.org" 1 false
      (some (J.jarr [J.jobj [("id", J.jstr "a"),
        ("cityId", J.jstr "custom")]])))).map
      (fun t => match t with | J.jobj r => dget r "cityId" | _ => none) =
      [some (J.jstr "chisinau")] ∧
    J.jstr "chisinau" ≠ J.jstr "custom" := by
  refine ⟨by decide, by decide, by decide⟩

/-- C4 (amended): a bare-array catalog document is rejected on read, not
accepted: its records are discarded, the merge proceeds exactly as from no
existing catalog, and the output is upgraded to the object shape
{version, updatedAt, trails} with the default version, today's date, and
trails rebuilt from the files alone. -/
theorem C4_bare_array_discarded (avail : Bool) (tr : String → String → String)
    (hav : GPoint → GPoint → ℚ) (today : String)
    (files : List (GpxFile × Option String)) (gfn rb : String) (dv : Int)
    (unv : Bool) (l : List J) :
    upsert_file avail tr hav today files gfn rb dv unv (some (J.jarr l)) =
      J.jobj [("version", J.jnum (mkRat dv 1)), ("updatedAt", J.jstr today),
        ("trails", J.jarr
          ((mkTrails avail tr hav files gfn rb unv []).map J.jobj))] ∧
    upsert_file avail tr hav today files gfn rb dv unv (some (J.jarr l)) =
      upsert_file avail tr hav today files gfn rb dv unv none := by
  constructor
  · exact upsert_eq_none_case avail tr hav today files gfn rb dv unv rfl
  · rw [upsert_eq_none_case avail tr hav today files gfn rb dv unv rfl,
      upsert_eq_none_case avail tr hav today files gfn rb dv unv rfl]


/-- C5 counterexample: on the empty point sequence — and on a singleton —
the analyzer returns a definite zeroed stats value, while the spec's
contract says the result is undefined (`none`). -/
theorem C5_counterexample :
    analyzerSpecContract (fun _ _ => 0) [] = none ∧
    calculate_elevation_stats (fun _ _ => 0) [] = ⟨0, 0, 0, 0, false⟩ ∧
    analyzerSpecContract (fun _ _ => 0) [⟨0, 0, some 5⟩] = none ∧
    calculate_elevation_stats (fun _ _ => 0) [⟨0, 0, some 5⟩] =
      ⟨0, 0, 0, 0, false⟩ := by
  refine ⟨by decide, by decide, by decide, by decide⟩

/-- C5 (amended): for every point sequence with fewer than 2 points the
analyzer returns the zeroed stats value — all numeric fields 0 and
`has_elevation = false` — rather than an undefined result. -/
theorem C5_small_input_stats (hav : GPoint → GPoint → ℚ)
    (pts : List GPoint) (h : pts.length < 2) :
    calculate_elevation_stats hav pts = ⟨0, 0, 0, 0, false⟩ := by
  rcases pts with _ | ⟨p, _ | ⟨q, rest⟩⟩
  · rfl
  · rcases p with ⟨la, lo, _ | e⟩ <;>
      simp [calculate_elevation_stats, totalDist, List.filterMap]
  · exact absurd h (by simp only [List.length_cons]; omega)

/-- Witness for C5: the empty sequence has fewer than 2 points and maps to
the zeroed stats value. -/
theorem C5_small_input_stats_witness :
    ([] : List GPoint).length < 2 ∧
    calculate_elevation_stats (fun _ _ => 0) [] = ⟨0, 0, 0, 0, false⟩ :=
  ⟨by decide, C5_small_input_stats (fun _ _ => 0) [] (by decide)⟩


/-- C6 counterexample: a file tagged `mtb:scale = 0` is classified `xc` by
the trail-type classifier even at difficulty `black` (and `red`): the tag
branch precedes and overrides the black/red protection. -/
theorem C6_counterexample :
    determine_trail_type
      ⟨"a", "a.gpx", [], none, none, none, [("mtb:scale", "0")]⟩
      ⟨0, 0, 0, 0, false⟩ "black" = "xc" ∧
    determine_trail_type
      ⟨"a", "a.gpx", [], none, none, none, [("mtb:scale", "0")]⟩
      ⟨0, 0, 0, 0, false⟩ "red" = "xc" := by
  refine ⟨by decide, by decide⟩

/-- C6 (amended): at difficulty `black` or `red` the classifier never
returns `xc` unless a numeric `mtb:scale` tag parses to a value below 1 —
whenever every parsed scale value is at least 1 (in particular when the
tag is absent or non-numeric), black and red are never classified `xc`. -/
theorem C6_no_xc_for_hard (f : GpxFile) (stats : Stats) (difficulty : String)
    (hd : difficulty = "black" ∨ difficulty = "red")
    (hsc : ∀ s, tagGet f.tags "mtb:scale" = some s →
      ∀ n, pyInt s = some n → 1 ≤ n) :
    determine_trail_type f stats difficulty ≠ "xc" := by
  unfold determine_trail_type
  dsimp only
  rcases hts : tagGet f.tags "mtb:scale" with _ | s <;> dsimp only
  case some =>
    rcases hn : pyInt s with _ | n <;> dsimp only [Option.map]
    case some =>
      have h1 := hsc s hts n hn
      split_ifs <;> first | decide | exact absurd h1 (by assumption)
    case none =>
      rcases hhw : tagGet f.tags "highway" with _ | hw <;>
        dsimp only <;>
        rcases hd with hd | hd <;> subst hd <;>
        split_ifs <;> simp_all <;> decide
  case none =>
    rcases hhw : tagGet f.tags "highway" with _ | hw <;>
      dsimp only <;>
      rcases hd with hd | hd <;> subst hd <;>
      split_ifs <;> simp_all <;> decide

/-- Witness for C6: an untagged black trail without elevation data is
classified `dh`, not `xc`. -/
theorem C6_no_xc_for_hard_witness :
    (("black" : String) = "black" ∨ ("black" : String) = "red") ∧
    determine_trail_type ⟨"a", "a.gpx", [], none, none, none, []⟩
      ⟨0, 0, 0, 0, false⟩ "black" ≠ "xc" :=
  ⟨Or.inl rfl, C6_no_xc_for_hard
    ⟨"a", "a.gpx", [], none, none, none, []⟩ ⟨0, 0, 0, 0, false⟩ "black"
    (Or.inl rfl) (fun _ hs => nomatch hs)⟩


/-- C7: the splitter's quality gate rejects a candidate exactly when its
point sequence has fewer than 10 points, or the analyzer's total distance
is below 900 m, or above 50 000 m — for every point sequence and distance
function. -/
theorem C7_quality_gate (hav : GPoint → GPoint → ℚ) (pts : List GPoint) :
    (should_process_track hav pts).1 = false ↔
      (pts.length < 10 ∨
        (calculate_elevation_stats hav pts).total_distance < 900 ∨
        (calculate_elevation_stats hav pts).total_distance > 50000) := by
  unfold should_process_track
  dsimp only
  split_ifs with h1 h2 h3 <;> simp_all


/-- The trails list of any `upsert_file` output is a `mkTrails` result (on
the prior list the root yielded, or on the empty list). -/
theorem trailsOf_upsert (avail : Bool) (tr : String → String → String)
    (hav : GPoint → GPoint → ℚ) (today : String)
    (files : List (GpxFile × Option String)) (gfn rb : String) (dv : Int)
    (unv : Bool) (root : Option J) :
    ∃ ts₀, trailsOf (upsert_file avail tr hav today files gfn rb dv unv
        root) =
      (mkTrails avail tr hav files gfn rb unv ts₀).map J.jobj := by
  rcases hwf : (match root with
      | some (J.jobj kvs) =>
          match dget kvs "trails" with
          | some (J.jarr ts) => some (kvs, ts)
          | _ => none
      | _ => (none : Option (List (String × J) × List J))) with _ | ⟨kvs, ts⟩
  · rw [upsert_eq_none_case avail tr hav today files gfn rb dv unv hwf]
    exact ⟨[], rfl⟩
  · rw [upsert_eq_some_case avail tr hav today files gfn rb dv unv hwf]
    split
    · exact ⟨ts, rfl⟩
    · exact ⟨ts, rfl⟩

/-- `ensure_city_fields` leaves every record with a `cityId` binding. -/
theorem dget_citySafety_isSome (kvs : List (String × J)) :
    (dget (citySafety kvs) "cityId").isSome = true := by
  unfold citySafety
  rcases h : dget kvs "cityId" with _ | v
  · rw [if_neg (by decide)]
    rw [dget_append_none _ h]
    rfl
  · rw [if_pos (show (some v).isSome = true from rfl)]
    rw [h]
    rfl

/-- Every reconciled record is a `buildFromFile` output (for some prior
record, stem, and resolved file). -/
theorem mem_mkTrails_build (avail : Bool) (tr : String → String → String)
    (hav : GPoint → GPoint → ℚ) (files : List (GpxFile × Option String))
    (gfn rb : String) (unv : Bool) (ts : List J) (r : List (String × J))
    (hr : r ∈ mkTrails avail tr hav files gfn rb unv ts) :
    ∃ prev s pc, r = buildFromFile avail tr hav gfn rb unv prev s pc := by
  unfold mkTrails at hr
  dsimp only at hr
  rw [List.mem_map] at hr
  obtain ⟨kvs, hk, rfl⟩ := hr
  rw [List.mem_append] at hk
  have hbuild : ∃ prev s pc,
      kvs = buildFromFile avail tr hav gfn rb unv prev s pc := by
    rcases hk with hk | hk
    · rw [List.mem_filterMap] at hk
      obtain ⟨tid, _, hfn⟩ := hk
      rcases tid with _ | b | q | s | l | o
      · simp at hfn
      · simp at hfn
      · simp at hfn
      · dsimp only at hfn
        rcases hfk : fileKey files s with _ | pc
        · rw [hfk] at hfn
          simp at hfn
        · rw [hfk] at hfn
          exact ⟨_, s, pc, (Option.some.inj hfn).symm⟩
      · simp at hfn
      · simp at hfn
    · rw [List.mem_filterMap] at hk
      obtain ⟨s, _, hfn⟩ := hk
      by_cases hlk : (idxLookup (idxOf ts) (J.jstr s)).isSome
      · rw [if_pos hlk] at hfn
        simp at hfn
      · rw [if_neg hlk] at hfn
        rcases hfk : fileKey files s with _ | pc
        · rw [hfk] at hfn
          simp at hfn
        · rw [hfk] at hfn
          exact ⟨_, s, pc, (Option.some.inj hfn).symm⟩
  obtain ⟨prev, s, pc, rfl⟩ := hbuild
  exact ⟨prev, s, pc, citySafety_buildFromFile avail tr hav gfn rb unv prev
    s pc⟩


/-- C9: every record the merge engine produces carries `name`, `suitable`
and `desc` maps whose key list is exactly the configured language list
(`ru`, `ro`, `uk`, `en`) — no key missing, none extra — for every input
catalog, file set, date, and mode. -/
theorem C9_i18n_complete (avail : Bool) (tr : String → String → String)
    (hav : GPoint → GPoint → ℚ) (today : String)
    (files : List (GpxFile × Option String)) (gfn rb : String) (dv : Int)
    (unv : Bool) (root : Option J) :
    ∀ t ∈ trailsOf (upsert_file avail tr hav today files gfn rb dv unv
        root),
      ∃ r nm su de, t = J.jobj r ∧
        dget r "name" = some (J.jobj nm) ∧ dkeys nm = LANGS ∧
        dget r "suitable" = some (J.jobj su) ∧ dkeys su = LANGS ∧
        dget r "desc" = some (J.jobj de) ∧ dkeys de = LANGS := by
  intro t ht
  obtain ⟨ts₀, hts⟩ := trailsOf_upsert avail tr hav today files gfn rb dv
    unv root
  rw [hts, List.mem_map] at ht
  obtain ⟨r, hr, rfl⟩ := ht
  obtain ⟨prev, s, pc, rfl⟩ := mem_mkTrails_build avail tr hav files gfn rb
    unv ts₀ r hr
  unfold buildFromFile
  dsimp only
  exact ⟨_, _, _, _, rfl,
    dget_build_name _ _ _ _ _ _ _ _ _ _ _,
    dkeys_buildName _ _ _ _ _ _ _ _,
    dget_build_suitable _ _ _ _ _ _ _ _ _ _ _,
    dkeys_buildSuitable _ _ _ _ _ _,
    dget_build_desc _ _ _ _ _ _ _ _ _ _ _,
    dkeys_buildDesc _ _ _ _ _ _ _ _⟩

/-- Witness for C9: the single record merged from file `a` over an empty
catalog has complete language maps. -/
theorem C9_i18n_complete_witness :
    ((trailsOf (upsert_file false (fun _ s => s) (fun _ _ => 0)
        "2025-01-01"
        [((⟨"a", "a.gpx", [], none, none, none, []⟩ : GpxFile),
          (none : Option String))] "gpx" "https://example.org" 1 false
        none)).getD 0 J.null ∈
      trailsOf (upsert_file false (fun _ s => s) (fun _ _ => 0)
        "2025-01-01"
        [((⟨"a", "a.gpx", [], none, none, none, []⟩ : GpxFile),
          (none : Option String))] "gpx" "https://example.org" 1 false
        none)) ∧
    ∃ r nm su de,
      (trailsOf (upsert_file false (fun _ s => s) (fun _ _ => 0)
        "2025-01-01"
        [((⟨"a", "a.gpx", [], none, none, none, []⟩ : GpxFile),
          (none : Option String))] "gpx" "https://example.org" 1 false
        none)).getD 0 J.null = J.jobj r ∧
      dget r "name" = some (J.jobj nm) ∧ dkeys nm = LANGS ∧
      dget r "suitable" = some (J.jobj su) ∧ dkeys su = LANGS ∧
      dget r "desc" = some (J.jobj de) ∧ dkeys de = LANGS :=
  ⟨by decide, C9_i18n_complete false (fun _ s => s) (fun _ _ => 0)
    "2025-01-01"
    [((⟨"a", "a.gpx", [], none, none, none, []⟩ : GpxFile),
      (none : Option String))] "gpx" "https://example.org" 1 false none
    _ (by decide)⟩

/-- C10: every merged record has a `cityId`: at the build level the prior
record's `cityId` is preserved and otherwise defaults to the constant
`chisinau`; and every record in any `upsert_file` output carries a
`cityId` binding — in verified and unverified mode alike. -/
theorem C10_cityId_key (avail : Bool) (tr : String → String → String)
    (hav : GPoint → GPoint → ℚ) (prev : List (String × J))
    (tid url : String) (slat slon : J) (f : GpxFile) (cid : Option String)
    (unv : Bool) (today : String)
    (files : List (GpxFile × Option String)) (gfn rb : String) (dv : Int)
    (root : Option J) :
    dget (build_trail_object avail tr hav prev tid url slat slon f cid unv)
      "cityId" = some ((dget prev "cityId").getD (J.jstr "chisinau")) ∧
    ∀ t ∈ trailsOf (upsert_file avail tr hav today files gfn rb dv unv
        root),
      ∃ r, t = J.jobj r ∧ (dget r "cityId").isSome = true := by
  constructor
  · exact dget_build_cityId avail tr hav prev tid url slat slon f cid unv
  · intro t ht
    obtain ⟨ts₀, hts⟩ := trailsOf_upsert avail tr hav today files gfn rb dv
      unv root
    rw [hts, List.mem_map] at ht
    obtain ⟨r, hr, rfl⟩ := ht
    refine ⟨r, rfl, ?_⟩
    unfold mkTrails at hr
    dsimp only at hr
    rw [List.mem_map] at hr
    obtain ⟨kvs, _, rfl⟩ := hr
    exact dget_citySafety_isSome kvs

/-- Witness for C10: a record built from an empty prior record gets
`cityId` `chisinau`, and the record in a concrete merged catalog has a
`cityId` binding. -/
theorem C10_cityId_key_witness :
    dget (build_trail_object false (fun _ s => s) (fun _ _ => 0) [] "a"
      "url" J.null J.null ⟨"a", "a.gpx", [], none, none, none, []⟩ none
      false) "cityId" = some (J.jstr "chisinau") ∧
    ∃ r,
      (trailsOf (upsert_file false (fun _ s => s) (fun _ _ => 0)
        "2025-01-01"
        [((⟨"a", "a.gpx", [], none, none, none, []⟩ : GpxFile),
          (none : Option String))] "gpx" "https://example.org" 1 false
        none)).getD 0 J.null = J.jobj r ∧
      (dget r "cityId").isSome = true :=
  ⟨(C10_cityId_key false (fun _ s => s) (fun _ _ => 0) [] "a" "url" J.null
      J.null ⟨"a", "a.gpx", [], none, none, none, []⟩ none false
      "2025-01-01"
      [((⟨"a", "a.gpx", [], none, none, none, []⟩ : GpxFile),
        (none : Option String))] "gpx" "https://example.org" 1 none).1,
    (C10_cityId_key false (fun _ s => s) (fun _ _ => 0) [] "a" "url" J.null
      J.null ⟨"a", "a.gpx", [], none, none, none, []⟩ none false
      "2025-01-01"
      [((⟨"a", "a.gpx", [], none, none, none, []⟩ : GpxFile),
        (none : Option String))] "gpx" "https://example.org" 1 none).2
      _ (by decide)⟩


theorem sphVec_inner (lat1 lon1 lat2 lon2 : ℝ) :
    rinner (sphVec lat1 lon1) (sphVec lat2 lon2) =
      Real.cos lat1 * Real.cos lat2 * Real.cos (lon2 - lon1) +
        Real.sin lat1 * Real.sin lat2 := by
  simp [rinner, sphVec, PiLp.inner_apply, Fin.sum_univ_three,
    RCLike.inner_apply, conj_trivial, Real.cos_sub]
  ring

theorem sphVec_norm (lat lon : ℝ) : ‖sphVec lat lon‖ = 1 := by
  have h : rinner (sphVec lat lon) (sphVec lat lon) = 1 := by
    rw [sphVec_inner, sub_self, Real.cos_zero]
    have := Real.sin_sq_add_cos_sq lat
    nlinarith
  rw [rinner, real_inner_self_eq_norm_sq] at h
  have h0 := norm_nonneg (sphVec lat lon)
  nlinarith

theorem inner_bounds (u v : EuclideanSpace ℝ (Fin 3)) (hu : ‖u‖ = 1)
    (hv : ‖v‖ = 1) : -1 ≤ rinner u v ∧ rinner u v ≤ 1 := by
  have h := abs_real_inner_le_norm u v
  rw [hu, hv, mul_one] at h
  have h2 : |rinner u v| ≤ 1 := h
  exact abs_le.mp h2

theorem arccos_eq_two_arcsin (t : ℝ) (h1 : -1 ≤ t) (h2 : t ≤ 1) :
    2 * Real.arcsin (Real.sqrt ((1 - t) / 2)) = Real.arccos t := by
  have hθ0 : 0 ≤ Real.arccos t := Real.arccos_nonneg t
  have hθπ : Real.arccos t ≤ Real.pi := Real.arccos_le_pi t
  have hcos : Real.cos (Real.arccos t) = t := Real.cos_arccos h1 h2
  have hsq : (1 - t) / 2 = Real.sin (Real.arccos t / 2) ^ 2 := by
    have hh := Real.sin_sq_eq_half_sub (Real.arccos t / 2)
    rw [hh]
    rw [show 2 * (Real.arccos t / 2) = Real.arccos t by ring, hcos]
    ring
  have hsin0 : 0 ≤ Real.sin (Real.arccos t / 2) := by
    apply Real.sin_nonneg_of_nonneg_of_le_pi
    · linarith
    · linarith [Real.pi_pos]
  rw [hsq, Real.sqrt_sq hsin0, Real.arcsin_sin (by linarith [Real.pi_pos])
    (by linarith)]
  ring

theorem arccos_triangle_aux (a b c : ℝ) (ha1 : -1 ≤ a) (ha2 : a ≤ 1)
    (hb1 : -1 ≤ b) (hb2 : b ≤ 1) (hc1 : -1 ≤ c) (hc2 : c ≤ 1)
    (h : a * b - Real.sqrt (1 - a ^ 2) * Real.sqrt (1 - b ^ 2) ≤ c) :
    Real.arccos c ≤ Real.arccos a + Real.arccos b := by
  by_cases hπ : Real.arccos a + Real.arccos b ≤ Real.pi
  · have hcos : Real.cos (Real.arccos a + Real.arccos b) ≤ c := by
      rw [Real.cos_add, Real.cos_arccos ha1 ha2, Real.cos_arccos hb1 hb2,
        Real.sin_arccos, Real.sin_arccos]
      exact h
    have hmono := Real.monotone_arcsin hcos
    have heq : Real.arccos (Real.cos (Real.arccos a + Real.arccos b)) =
        Real.arccos a + Real.arccos b :=
      Real.arccos_cos (add_nonneg (Real.arccos_nonneg a)
        (Real.arccos_nonneg b)) hπ
    rw [Real.arccos_eq_pi_div_two_sub_arcsin] at heq ⊢
    linarith
  · push_neg at hπ
    exact (Real.arccos_le_pi c).trans (le_of_lt hπ)

theorem rinner_triangle (u v w : EuclideanSpace ℝ (Fin 3)) (hu : ‖u‖ = 1)
    (hv : ‖v‖ = 1) (hw : ‖w‖ = 1) :
    Real.arccos (rinner u w) ≤
      Real.arccos (rinner u v) + Real.arccos (rinner v w) := by
  have hb : ∀ x y : EuclideanSpace ℝ (Fin 3), ‖x‖ = 1 → ‖y‖ = 1 →
      -1 ≤ rinner x y ∧ rinner x y ≤ 1 := by
    intro x y hx hy
    have h := abs_real_inner_le_norm x y
    rw [hx, hy, mul_one] at h
    exact abs_le.mp h
  obtain ⟨ha1, ha2⟩ := hb u v hu hv
  obtain ⟨hb1, hb2⟩ := hb v w hv hw
  obtain ⟨hc1, hc2⟩ := hb u w hu hw
  set a := rinner u v with hadef
  set b := rinner v w with hbdef
  set c := rinner u w with hcdef
  apply arccos_triangle_aux a b c ha1 ha2 hb1 hb2 hc1 hc2
  -- the orthogonal components
  have hvv : rinner v v = 1 := by
    rw [rinner, real_inner_self_eq_norm_sq, hv]; norm_num
  have hexp : rinner (u - a • v) (w - b • v) = c - a * b := by
    rw [rinner, inner_sub_left, inner_sub_right, inner_sub_right,
      real_inner_smul_left, real_inner_smul_left, real_inner_smul_right,
      real_inner_smul_right]
    have h1 : (inner u w : ℝ) = c := rfl
    have h2 : (inner u v : ℝ) = a := rfl
    have h3 : (inner v w : ℝ) = b := rfl
    have h4 : (inner v v : ℝ) = 1 := hvv
    rw [h1, h2, h3, h4]
    ring
  have hnu : ‖u - a • v‖ ^ 2 = 1 - a ^ 2 := by
    rw [← real_inner_self_eq_norm_sq, inner_sub_left, inner_sub_right,
      inner_sub_right, real_inner_smul_left, real_inner_smul_left,
      real_inner_smul_right, real_inner_smul_right]
    have h2 : (inner u v : ℝ) = a := rfl
    have h4 : (inner v v : ℝ) = 1 := hvv
    have h5 : (inner u u : ℝ) = 1 := by
      rw [real_inner_self_eq_norm_sq, hu]; norm_num
    have h6 : (inner v u : ℝ) = a := by
      rw [real_inner_comm]; exact h2
    rw [h2, h4, h5, h6]
    ring
  have hnw : ‖w - b • v‖ ^ 2 = 1 - b ^ 2 := by
    rw [← real_inner_self_eq_norm_sq, inner_sub_left, inner_sub_right,
      inner_sub_right, real_inner_smul_left, real_inner_smul_left,
      real_inner_smul_right, real_inner_smul_right]
    have h3 : (inner w v : ℝ) = b := by rw [real_inner_comm]; rfl
    have h4 : (inner v v : ℝ) = 1 := hvv
    have h5 : (inner w w : ℝ) = 1 := by
      rw [real_inner_self_eq_norm_sq, hw]; norm_num
    have h6 : (inner v w : ℝ) = b := rfl
    rw [h3, h4, h5, h6]
    ring
  have hnu' : ‖u - a • v‖ = Real.sqrt (1 - a ^ 2) := by
    rw [← hnu, Real.sqrt_sq (norm_nonneg _)]
  have hnw' : ‖w - b • v‖ = Real.sqrt (1 - b ^ 2) := by
    rw [← hnw, Real.sqrt_sq (norm_nonneg _)]
  have hcs := abs_real_inner_le_norm (u - a • v) (w - b • v)
  rw [hnu', hnw'] at hcs
  have hcs2 : |c - a * b| ≤ Real.sqrt (1 - a ^ 2) * Real.sqrt (1 - b ^ 2) := by
    rw [← hexp]
    exact hcs
  have := abs_le.mp hcs2
  linarith [this.1]

theorem hav_half_identity (lat1 lon1 lat2 lon2 : ℝ) :
    Real.sin ((lat2 - lat1) / 2) ^ 2 +
      Real.cos lat1 * Real.cos lat2 * Real.sin ((lon2 - lon1) / 2) ^ 2 =
    (1 - rinner (sphVec lat1 lon1) (sphVec lat2 lon2)) / 2 := by
  have e1 := Real.sin_sq_eq_half_sub ((lat2 - lat1) / 2)
  rw [show 2 * ((lat2 - lat1) / 2) = lat2 - lat1 by ring] at e1
  have e2 := Real.sin_sq_eq_half_sub ((lon2 - lon1) / 2)
  rw [show 2 * ((lon2 - lon1) / 2) = lon2 - lon1 by ring] at e2
  rw [e1, e2, sphVec_inner, Real.cos_sub]
  ring

theorem haversineDist_eq_arccos (p q : RPoint) :
    haversineDist p q = 6371000 *
      Real.arccos (rinner (sphVec (radians p.lat) (radians p.lon))
        (sphVec (radians q.lat) (radians q.lon))) := by
  unfold haversineDist
  dsimp only
  rw [hav_half_identity]
  obtain ⟨h1, h2⟩ := inner_bounds _ _ (sphVec_norm (radians p.lat)
    (radians p.lon)) (sphVec_norm (radians q.lat) (radians q.lon))
  rw [arccos_eq_two_arcsin _ h1 h2]

theorem haversineDist_self (p : RPoint) : haversineDist p p = 0 := by
  rw [haversineDist_eq_arccos]
  have h : rinner (sphVec (radians p.lat) (radians p.lon))
      (sphVec (radians p.lat) (radians p.lon)) = 1 := by
    rw [rinner, real_inner_self_eq_norm_sq, sphVec_norm]
    norm_num
  rw [h, Real.arccos_one, mul_zero]

theorem haversineDist_triangle (p q r : RPoint) :
    haversineDist p r ≤ haversineDist p q + haversineDist q r := by
  rw [haversineDist_eq_arccos, haversineDist_eq_arccos,
    haversineDist_eq_arccos]
  have h := rinner_triangle (sphVec (radians p.lat) (radians p.lon))
    (sphVec (radians q.lat) (radians q.lon))
    (sphVec (radians r.lat) (radians r.lon))
    (sphVec_norm _ _) (sphVec_norm _ _) (sphVec_norm _ _)
  nlinarith [h]

theorem totalDistR_ge_last (l : List RPoint) : ∀ p : RPoint,
    haversineDist p ((p :: l).getLast (List.cons_ne_nil _ _)) ≤
      totalDistR (p :: l) := by
  induction l with
  | nil =>
      intro p
      rw [List.getLast_singleton]
      rw [haversineDist_self]
      exact le_refl 0
  | cons q rest ih =>
      intro p
      rw [List.getLast_cons (List.cons_ne_nil _ _)]
      show haversineDist p ((q :: rest).getLast (List.cons_ne_nil _ _)) ≤
        haversineDist p q + totalDistR (q :: rest)
      have h1 := haversineDist_triangle p q
        ((q :: rest).getLast (List.cons_ne_nil _ _))
      have h2 := ih q
      linarith

/-- C8: for every point sequence of at least 2 points, the accumulated
total length — the sum of haversine great-circle distances on the sphere
of radius 6 371 000 m between consecutive points — is at least the single
haversine distance between the first and the last point. -/
theorem C8_distance_monotone (p q : RPoint) (l : List RPoint) :
    haversineDist p ((p :: q :: l).getLast (List.cons_ne_nil _ _)) ≤
      totalDistR (p :: q :: l) :=
  totalDistR_ge_last (q :: l) p

end TrailAtlas
